import Mathlib

/-!
Verification of the anneal sync/cache subsystem.

This file gives a shallow embedding of the repository's storage layer
(internal/storage: db.go, mailboxes.go, the email storage file) and the
Syncer (the sync file of package storage), together with the cache-first
mailbox load path of the UI layer, and proves the specification claims
about them.

Modelling conventions:
  - Each SQLite table is a list of row records; primary-key semantics are
    realised by the statement executor (INSERT fails on a duplicate key,
    INSERT OR REPLACE removes the conflicting row first, INSERT OR IGNORE
    keeps the existing row).
  - Every Go store method is translated to a statement list executed either
    inside a transaction (tx.Begin / defer tx.Rollback / tx.Commit in the
    source: on any failing statement the whole database reverts to its
    prior state) or directly (each statement autocommits, a failure leaves
    the statements already executed applied).
  - Disk failure is injected by a `failAt` parameter: the statement with
    that index inside one store call fails spuriously. `none` injects no
    failure. The Syncer takes a schedule `sf` assigning a `failAt` to each
    successive store call of the cycle.
  - `time.Now()` is passed explicitly as a `now : Int` Unix timestamp.
  - Address lists and attachment lists travel through the store as their
    JSON serialisations; they are modelled as the opaque serialised
    strings (`fromJson`, `attachmentsJson`, ...), since the store never
    inspects their contents.
  - The remote JMAP client is the external collaborator: it is a record of
    response functions (`none` = the call fails), mirroring the black-box
    client the Syncer consumes.
-/

namespace Anneal

/-- models.Mailbox (internal/models/mailbox.go). -/
structure Mailbox where
  id : String
  name : String
  role : String
  parentId : String
  totalEmails : Int
  unreadCount : Int
  sortOrder : Int
deriving DecidableEq, Repr

/-- models.Email (internal/models/email.go); address and attachment lists
are carried as their JSON serialisations. -/
structure Email where
  id : String
  threadId : String
  mailboxIds : List String
  fromJson : String
  toJson : String
  ccJson : String
  replyToJson : String
  subject : String
  preview : String
  textBody : String
  htmlBody : String
  receivedAt : Int
  size : Int
  isUnread : Bool
  isFlagged : Bool
  isDraft : Bool
  hasAttachment : Bool
  attachmentsJson : String
deriving DecidableEq, Repr

/-- A row of the `mailboxes` table (migration001 in db.go). -/
structure MailboxRow where
  id : String
  accountId : String
  name : String
  role : Option String
  parentId : Option String
  totalEmails : Int
  unreadCount : Int
  sortOrder : Int
  updatedAt : Int
deriving DecidableEq, Repr

/-- A row of the `emails` table. -/
structure EmailRow where
  id : String
  accountId : String
  threadId : String
  subject : String
  preview : String
  fromJson : String
  toJson : String
  ccJson : String
  replyToJson : String
  receivedAt : Int
  size : Int
  isUnread : Bool
  isFlagged : Bool
  isDraft : Bool
  hasAttachment : Bool
  updatedAt : Int
deriving DecidableEq, Repr

/-- A row of the `email_bodies` table. -/
structure BodyRow where
  emailId : String
  textBody : String
  htmlBody : String
  attachmentsJson : String
  fetchedAt : Int
deriving DecidableEq, Repr

/-- A row of the `sync_state` table; also storage.SyncState. -/
structure SyncStateRow where
  accountId : String
  mailboxState : String
  emailState : String
  lastSync : Int
deriving DecidableEq, Repr

/-- The SQLite database of the Store: one list per table. -/
structure DB where
  mailboxes : List MailboxRow
  emails : List EmailRow
  emailMailboxes : List (String × String)
  emailBodies : List BodyRow
  syncStates : List SyncStateRow
deriving DecidableEq, Repr

/-- Row lookup by the `emails` primary key. -/
def findEmailRow (l : List EmailRow) (i : String) : Option EmailRow :=
  l.find? (fun r => r.id == i)

/-- Row lookup by the `mailboxes` primary key. -/
def findMailboxRow (l : List MailboxRow) (i : String) : Option MailboxRow :=
  l.find? (fun r => r.id == i)

/-- Row lookup by the `email_bodies` primary key. -/
def findBodyRow (l : List BodyRow) (i : String) : Option BodyRow :=
  l.find? (fun r => r.emailId == i)

/-- Row lookup by the `sync_state` primary key. -/
def findSyncStateRow (l : List SyncStateRow) (a : String) : Option SyncStateRow :=
  l.find? (fun r => r.accountId == a)

/-- One SQL statement issued by a store method. -/
inductive Stmt where
  | delMailboxesByAccount (accountId : String)
  | insMailbox (row : MailboxRow)
  | upsertMailbox (row : MailboxRow)
  | delMailboxById (id : String)
  | upsertEmail (row : EmailRow)
  | insMembershipIgnore (emailId mailboxId : String)
  | insMembership (emailId mailboxId : String)
  | delMembershipsByEmail (emailId : String)
  | delBodiesByEmail (emailId : String)
  | delEmailById (id : String)
  | upsertBody (row : BodyRow)
  | delOldBodies (cutoff : Int)
  | updFlags (emailId : String) (isUnread isFlagged : Bool) (now : Int)
  | upsertSyncState (row : SyncStateRow)
  | delAllBodies
  | delAllMemberships
  | delAllEmails
  | delAllMailboxes
  | delAllSyncStates
deriving DecidableEq, Repr

/-- Execute one statement; `none` is a constraint violation (a plain INSERT
hitting an existing primary key). -/
def execStmt (db : DB) : Stmt → Option DB
  | .delMailboxesByAccount a =>
      some { db with mailboxes := db.mailboxes.filter (fun r => !(r.accountId == a)) }
  | .insMailbox r =>
      if (findMailboxRow db.mailboxes r.id).isSome then none
      else some { db with mailboxes := db.mailboxes ++ [r] }
  | .upsertMailbox r =>
      some { db with mailboxes := db.mailboxes.filter (fun x => !(x.id == r.id)) ++ [r] }
  | .delMailboxById i =>
      some { db with mailboxes := db.mailboxes.filter (fun x => !(x.id == i)) }
  | .upsertEmail r =>
      some { db with emails := db.emails.filter (fun x => !(x.id == r.id)) ++ [r] }
  | .insMembershipIgnore e m =>
      some { db with emailMailboxes :=
        if (e, m) ∈ db.emailMailboxes then db.emailMailboxes else db.emailMailboxes ++ [(e, m)] }
  | .insMembership e m =>
      if (e, m) ∈ db.emailMailboxes then none
      else some { db with emailMailboxes := db.emailMailboxes ++ [(e, m)] }
  | .delMembershipsByEmail e =>
      some { db with emailMailboxes := db.emailMailboxes.filter (fun p => !(p.1 == e)) }
  | .delBodiesByEmail e =>
      some { db with emailBodies := db.emailBodies.filter (fun b => !(b.emailId == e)) }
  | .delEmailById i =>
      some { db with emails := db.emails.filter (fun x => !(x.id == i)) }
  | .upsertBody r =>
      some { db with emailBodies := db.emailBodies.filter (fun b => !(b.emailId == r.emailId)) ++ [r] }
  | .delOldBodies cutoff =>
      some { db with emailBodies := db.emailBodies.filter (fun b => !(decide (b.fetchedAt < cutoff))) }
  | .updFlags e u f now =>
      some { db with emails := db.emails.map (fun r =>
        if r.id == e then { r with isUnread := u, isFlagged := f, updatedAt := now } else r) }
  | .upsertSyncState r =>
      some { db with syncStates := db.syncStates.filter (fun s => !(s.accountId == r.accountId)) ++ [r] }
  | .delAllBodies => some { db with emailBodies := [] }
  | .delAllMemberships => some { db with emailMailboxes := [] }
  | .delAllEmails => some { db with emails := [] }
  | .delAllMailboxes => some { db with mailboxes := [] }
  | .delAllSyncStates => some { db with syncStates := [] }

/-- Total version of `execStmt` (a constraint violation leaves the state). -/
def applyStmt (db : DB) (s : Stmt) : DB := (execStmt db s).getD db

/-- Run statements sequentially; the statement with index `failAt` fails
with an injected disk error; a constraint violation also fails. -/
def runStmts (db : DB) (stmts : List Stmt) (failAt : Option Nat) (i : Nat) : Option DB :=
  match stmts with
  | [] => some db
  | s :: rest =>
      if failAt = some i then none
      else match execStmt db s with
        | none => none
        | some db' => runStmts db' rest failAt (i + 1)

/-- Run a statement list inside one transaction: on any failure the
database rolls back to its prior state (tx.Begin / defer tx.Rollback /
tx.Commit in the source). -/
def runTx (db : DB) (stmts : List Stmt) (failAt : Option Nat) : Bool × DB :=
  match runStmts db stmts failAt 0 with
  | some db' => (true, db')
  | none => (false, db)

/-- Run statements directly (each autocommits): a failure keeps the
statements already executed applied and stops. -/
def runDirect (db : DB) (stmts : List Stmt) (failAt : Option Nat) (i : Nat) : Bool × DB :=
  match stmts with
  | [] => (true, db)
  | s :: rest =>
      if failAt = some i then (false, db)
      else match execStmt db s with
        | none => (false, db)
        | some db' => runDirect db' rest failAt (i + 1)

/-- Conversion of a models.Mailbox to its table row (SaveMailboxes /
UpdateMailbox in mailboxes.go: empty role / parent become NULL). -/
def mailboxToRow (accountID : String) (mb : Mailbox) (now : Int) : MailboxRow :=
  { id := mb.id
    accountId := accountID
    name := mb.name
    role := if mb.role = "" then none else some mb.role
    parentId := if mb.parentId = "" then none else some mb.parentId
    totalEmails := mb.totalEmails
    unreadCount := mb.unreadCount
    sortOrder := mb.sortOrder
    updatedAt := now }

/-- Conversion of a models.Email to its `emails` table row (SaveEmails). -/
def emailToRow (accountID : String) (e : Email) (now : Int) : EmailRow :=
  { id := e.id
    accountId := accountID
    threadId := e.threadId
    subject := e.subject
    preview := e.preview
    fromJson := e.fromJson
    toJson := e.toJson
    ccJson := e.ccJson
    replyToJson := e.replyToJson
    receivedAt := e.receivedAt
    size := e.size
    isUnread := e.isUnread
    isFlagged := e.isFlagged
    isDraft := e.isDraft
    hasAttachment := e.hasAttachment
    updatedAt := now }

/-- Statement list of Store.SaveMailboxes: delete the account's rows, then
plain INSERT each new row, all in one transaction. -/
def saveMailboxesStmts (accountID : String) (mbs : List Mailbox) (now : Int) : List Stmt :=
  .delMailboxesByAccount accountID :: mbs.map (fun mb => .insMailbox (mailboxToRow accountID mb now))

/-- Store.SaveMailboxes (mailboxes.go): transactional replace of the
account's mailbox set. -/
def SaveMailboxes (db : DB) (accountID : String) (mbs : List Mailbox) (now : Int)
    (failAt : Option Nat) : Bool × DB :=
  runTx db (saveMailboxesStmts accountID mbs now) failAt

/-- Store.UpdateMailbox: a single INSERT OR REPLACE, no transaction. -/
def UpdateMailbox (db : DB) (accountID : String) (mb : Mailbox) (now : Int)
    (failAt : Option Nat) : Bool × DB :=
  runDirect db [.upsertMailbox (mailboxToRow accountID mb now)] failAt 0

/-- Store.DeleteMailbox: a single DELETE, no transaction. -/
def DeleteMailbox (db : DB) (mailboxID : String) (failAt : Option Nat) : Bool × DB :=
  runDirect db [.delMailboxById mailboxID] failAt 0

/-- The statements SaveEmails issues for one email: INSERT OR REPLACE the
summary, then INSERT OR IGNORE one membership row per MailboxIDs entry. -/
def saveOneEmailStmts (accountID : String) (e : Email) (now : Int) : List Stmt :=
  .upsertEmail (emailToRow accountID e now) :: e.mailboxIds.map (fun m => .insMembershipIgnore e.id m)

/-- Statement list of Store.SaveEmails over the whole input. -/
def saveEmailsStmts (accountID : String) (emails : List Email) (now : Int) : List Stmt :=
  (emails.map (fun e => saveOneEmailStmts accountID e now)).flatten

/-- Store.SaveEmails (email storage file): one transaction upserting each
summary and inserting membership rows with INSERT OR IGNORE. -/
def SaveEmails (db : DB) (accountID : String) (emails : List Email) (now : Int)
    (failAt : Option Nat) : Bool × DB :=
  runTx db (saveEmailsStmts accountID emails now) failAt

/-- Store.DeleteEmail: one transaction deleting body, membership and
summary rows, in that order. -/
def DeleteEmail (db : DB) (emailID : String) (failAt : Option Nat) : Bool × DB :=
  runTx db [.delBodiesByEmail emailID, .delMembershipsByEmail emailID, .delEmailById emailID] failAt

/-- Store.UpdateEmailMailboxes: one transaction deleting all membership
rows of the email and plain-INSERTing the new ones. -/
def UpdateEmailMailboxes (db : DB) (emailID : String) (mailboxIDs : List String)
    (failAt : Option Nat) : Bool × DB :=
  runTx db (.delMembershipsByEmail emailID :: mailboxIDs.map (fun m => .insMembership emailID m)) failAt

/-- Store.UpdateEmailFlags: a single UPDATE, no transaction. -/
def UpdateEmailFlags (db : DB) (emailID : String) (isUnread isFlagged : Bool) (now : Int)
    (failAt : Option Nat) : Bool × DB :=
  runDirect db [.updFlags emailID isUnread isFlagged now] failAt 0

/-- Store.SaveEmailBody: a single INSERT OR REPLACE keyed by email id. -/
def SaveEmailBody (db : DB) (e : Email) (now : Int) (failAt : Option Nat) : Bool × DB :=
  let row : BodyRow :=
    { emailId := e.id
      textBody := e.textBody
      htmlBody := e.htmlBody
      attachmentsJson := e.attachmentsJson
      fetchedAt := now }
  runDirect db [.upsertBody row] failAt 0

/-- Store.PurgeOldBodies: one DELETE of body rows with fetched_at before
`now - olderThan`; returns RowsAffected. -/
def PurgeOldBodies (db : DB) (olderThan now : Int) (failAt : Option Nat) : Bool × Nat × DB :=
  let cutoff := now - olderThan
  if failAt = some 0 then (false, 0, db)
  else
    (true, db.emailBodies.countP (fun b => decide (b.fetchedAt < cutoff)),
     { db with emailBodies := db.emailBodies.filter (fun b => !(decide (b.fetchedAt < cutoff))) })

/-- Store.ClearCache (db.go): five separate DELETE statements, one per
table, each its own implicit transaction — NOT wrapped in one transaction. -/
def ClearCache (db : DB) (failAt : Option Nat) : Bool × DB :=
  runDirect db [.delAllBodies, .delAllMemberships, .delAllEmails, .delAllMailboxes, .delAllSyncStates]
    failAt 0

/-- Store.GetSyncState: row lookup by account (reads are modelled
infallible). -/
def GetSyncState (db : DB) (accountID : String) : Option SyncStateRow :=
  findSyncStateRow db.syncStates accountID

/-- Store.SaveSyncState: a single INSERT OR REPLACE of the whole row. -/
def SaveSyncState (db : DB) (st : SyncStateRow) (failAt : Option Nat) : Bool × DB :=
  runDirect db [.upsertSyncState st] failAt 0

/-- Insertion into a list sorted by `le` (used to model ORDER BY). -/
def insertLe {α : Type} (le : α → α → Bool) (x : α) : List α → List α
  | [] => [x]
  | y :: ys => if le x y then x :: y :: ys else y :: insertLe le x ys

/-- Insertion sort by `le` (used to model ORDER BY). -/
def sortLe {α : Type} (le : α → α → Bool) (l : List α) : List α :=
  l.foldr (insertLe le) []

/-- GetMailboxes row conversion: NULL role / parent read back as "". -/
def rowToMailbox (r : MailboxRow) : Mailbox :=
  { id := r.id
    name := r.name
    role := r.role.getD ""
    parentId := r.parentId.getD ""
    totalEmails := r.totalEmails
    unreadCount := r.unreadCount
    sortOrder := r.sortOrder }

/-- Store.GetMailboxes: the account's rows ordered by (sort_order, name). -/
def GetMailboxes (db : DB) (accountID : String) : List Mailbox :=
  (sortLe (fun a b => a.sortOrder < b.sortOrder || (a.sortOrder == b.sortOrder && decide (a.name ≤ b.name)))
    (db.mailboxes.filter (fun r => r.accountId == accountID))).map rowToMailbox

/-- scanEmails row conversion: body fields and MailboxIDs are not selected
and stay at their zero values. -/
def rowToEmail (r : EmailRow) : Email :=
  { id := r.id
    threadId := r.threadId
    mailboxIds := []
    fromJson := r.fromJson
    toJson := r.toJson
    ccJson := r.ccJson
    replyToJson := r.replyToJson
    subject := r.subject
    preview := r.preview
    textBody := ""
    htmlBody := ""
    receivedAt := r.receivedAt
    size := r.size
    isUnread := r.isUnread
    isFlagged := r.isFlagged
    isDraft := r.isDraft
    hasAttachment := r.hasAttachment
    attachmentsJson := "" }

/-- Store.GetEmails: summaries joined through membership on the mailbox,
newest received_at first, LIMIT applied (a negative SQLite LIMIT means no
limit). -/
def GetEmails (db : DB) (mailboxID : String) (limit : Int) : List Email :=
  let joined := db.emails.filter (fun r => db.emailMailboxes.contains (r.id, mailboxID))
  let sorted := sortLe (fun a b => decide (b.receivedAt ≤ a.receivedAt)) joined
  (if limit < 0 then sorted else sorted.take limit.toNat).map rowToEmail

/-- Store.GetEmailBody: LEFT JOIN of the summary with its body row; `none`
exactly when the summary row does not exist; missing body leaves the body
fields at their zero values. -/
def GetEmailBody (db : DB) (emailID : String) : Option Email :=
  match findEmailRow db.emails emailID with
  | none => none
  | some r =>
      match findBodyRow db.emailBodies emailID with
      | none => some (rowToEmail r)
      | some b =>
          some { rowToEmail r with
                 textBody := b.textBody
                 htmlBody := b.htmlBody
                 attachmentsJson := b.attachmentsJson }

/-- The delta returned by the client's /changes calls (created, updated,
destroyed id sets plus the new state token). -/
structure Changes where
  created : List String
  updated : List String
  destroyed : List String
  newState : String
deriving DecidableEq, Repr

/-- The remote JMAP client as consumed by the Syncer: a black-box record of
response functions; `none` models a failed call. -/
structure Client where
  accountId : String
  mailboxesWithState : Option (List Mailbox × String)
  getMailboxChanges : String → Option Changes
  getMailboxesByIDs : List String → Option (List Mailbox)
  emailsWithState : String → Int → Option (List Email × String)
  getEmailChanges : String → Option Changes
  getEmailsByIDs : List String → Option (List Email)

/-- storage.SyncResult. -/
structure SyncResult where
  mailboxesCreated : Nat
  mailboxesUpdated : Nat
  mailboxesDestroyed : Nat
  emailsCreated : Nat
  emailsUpdated : Nat
  emailsDestroyed : Nat
deriving DecidableEq, Repr

/-- A store-call failure schedule for one sync cycle: the k-th store call
of the cycle runs with failAt `sf k`. `sfNone` injects no failures. -/
def sfNone : Nat → Option Nat := fun _ => none

/-- Syncer.fullMailboxSync: fetch all mailboxes with their state token,
SaveMailboxes, then SaveSyncState of a FRESH SyncState value whose
EmailState field is the Go zero value "". `k` is the index of the next
store call in the failure schedule. -/
def fullMailboxSync (c : Client) (accountID : String) (db : DB) (now : Int)
    (sf : Nat → Option Nat) (k : Nat) : Option SyncResult × DB :=
  match c.mailboxesWithState with
  | none => (none, db)
  | some (mbs, newState) =>
      match SaveMailboxes db accountID mbs now (sf k) with
      | (false, db1) => (none, db1)
      | (true, db1) =>
          match SaveSyncState db1 ⟨accountID, newState, "", now⟩ (sf (k + 1)) with
          | (false, db2) => (none, db2)
          | (true, db2) =>
              (some { mailboxesCreated := mbs.length, mailboxesUpdated := 0, mailboxesDestroyed := 0,
                      emailsCreated := 0, emailsUpdated := 0, emailsDestroyed := 0 }, db2)

/-- The `for _, id := range changes.Destroyed` loop of SyncMailboxes:
DeleteMailbox each destroyed id, counting; on a store failure stop with the
deletions so far committed. Returns (ok, db, next store-call index,
destroyed count). -/
def deleteMailboxesLoop (db : DB) (ids : List String) (sf : Nat → Option Nat) (k cnt : Nat) :
    Bool × DB × Nat × Nat :=
  match ids with
  | [] => (true, db, k, cnt)
  | i :: rest =>
      match DeleteMailbox db i (sf k) with
      | (false, db') => (false, db', k + 1, cnt)
      | (true, db') => deleteMailboxesLoop db' rest sf (k + 1) (cnt + 1)

/-- The `for _, mb := range mailboxes` loop of SyncMailboxes: UpdateMailbox
each fetched record. Returns (ok, db, next store-call index). -/
def updateMailboxesLoop (db : DB) (accountID : String) (mbs : List Mailbox) (now : Int)
    (sf : Nat → Option Nat) (k : Nat) : Bool × DB × Nat :=
  match mbs with
  | [] => (true, db, k)
  | mb :: rest =>
      match UpdateMailbox db accountID mb now (sf k) with
      | (false, db') => (false, db', k + 1)
      | (true, db') => updateMailboxesLoop db' accountID rest now sf (k + 1)

/-- Tail of the incremental SyncMailboxes: persist the mutated SyncState
(token and timestamp updated in place) and return the result. -/
def finishMailboxSync (state : SyncStateRow) (newState : String) (db : DB) (now : Int)
    (sf : Nat → Option Nat) (k : Nat) (result : SyncResult) : Option SyncResult × DB :=
  match SaveSyncState db { state with mailboxState := newState, lastSync := now } (sf k) with
  | (false, db') => (none, db')
  | (true, db') => (some result, db')

/-- Syncer.SyncMailboxes: full sync when no state or empty mailbox token;
otherwise delta sync, falling back to full sync when the delta call fails;
destructions applied first, then created ∪ updated fetched by id and
upserted, then the new token persisted. -/
def SyncMailboxes (c : Client) (db : DB) (now : Int) (sf : Nat → Option Nat) :
    Option SyncResult × DB :=
  match GetSyncState db c.accountId with
  | none => fullMailboxSync c c.accountId db now sf 0
  | some state =>
      if state.mailboxState = "" then fullMailboxSync c c.accountId db now sf 0
      else
        match c.getMailboxChanges state.mailboxState with
        | none => fullMailboxSync c c.accountId db now sf 0
        | some changes =>
            match deleteMailboxesLoop db changes.destroyed sf 0 0 with
            | (false, db1, _, _) => (none, db1)
            | (true, db1, k1, cnt) =>
                if (changes.created ++ changes.updated).length > 0 then
                  match c.getMailboxesByIDs (changes.created ++ changes.updated) with
                  | none => (none, db1)
                  | some mbs =>
                      match updateMailboxesLoop db1 c.accountId mbs now sf k1 with
                      | (false, db2, _) => (none, db2)
                      | (true, db2, k2) =>
                          finishMailboxSync state changes.newState db2 now sf k2
                            { mailboxesCreated := changes.created.length
                              mailboxesUpdated := changes.updated.length
                              mailboxesDestroyed := cnt
                              emailsCreated := 0, emailsUpdated := 0, emailsDestroyed := 0 }
                else
                  finishMailboxSync state changes.newState db1 now sf k1
                    { mailboxesCreated := 0, mailboxesUpdated := 0, mailboxesDestroyed := cnt
                      emailsCreated := 0, emailsUpdated := 0, emailsDestroyed := 0 }

/-- Syncer.fullEmailSync: fetch the mailbox's emails with state token,
SaveEmails (an upsert, note: NOT a set replace), then read the existing
SyncState (creating a fresh one only if absent) and persist it with the
email token and timestamp updated — the mailbox token is preserved here. -/
def fullEmailSync (c : Client) (accountID mailboxID : String) (limit : Int) (db : DB) (now : Int)
    (sf : Nat → Option Nat) (k : Nat) : Option SyncResult × DB :=
  match c.emailsWithState mailboxID limit with
  | none => (none, db)
  | some (emails, newState) =>
      match SaveEmails db accountID emails now (sf k) with
      | (false, db1) => (none, db1)
      | (true, db1) =>
          match SaveSyncState db1
              { (match GetSyncState db1 accountID with
                 | none => (⟨accountID, "", "", 0⟩ : SyncStateRow)
                 | some st => st) with emailState := newState, lastSync := now }
              (sf (k + 1)) with
          | (false, db2) => (none, db2)
          | (true, db2) =>
              (some { mailboxesCreated := 0, mailboxesUpdated := 0, mailboxesDestroyed := 0,
                      emailsCreated := emails.length, emailsUpdated := 0, emailsDestroyed := 0 }, db2)

/-- The `for _, id := range changes.Destroyed` loop of SyncEmails:
DeleteEmail each destroyed id. Returns (ok, db, next store-call index,
destroyed count). -/
def deleteEmailsLoop (db : DB) (ids : List String) (sf : Nat → Option Nat) (k cnt : Nat) :
    Bool × DB × Nat × Nat :=
  match ids with
  | [] => (true, db, k, cnt)
  | i :: rest =>
      match DeleteEmail db i (sf k) with
      | (false, db') => (false, db', k + 1, cnt)
      | (true, db') => deleteEmailsLoop db' rest sf (k + 1) (cnt + 1)

/-- Tail of the incremental SyncEmails: persist the mutated SyncState. -/
def finishEmailSync (state : SyncStateRow) (newState : String) (db : DB) (now : Int)
    (sf : Nat → Option Nat) (k : Nat) (result : SyncResult) : Option SyncResult × DB :=
  match SaveSyncState db { state with emailState := newState, lastSync := now } (sf k) with
  | (false, db') => (none, db')
  | (true, db') => (some result, db')

/-- Syncer.SyncEmails: full sync when no state or empty email token;
otherwise delta sync with full-sync fallback on delta failure; destructions
first, then created ∪ updated fetched by id and saved via SaveEmails, then
the new token persisted. -/
def SyncEmails (c : Client) (mailboxID : String) (limit : Int) (db : DB) (now : Int)
    (sf : Nat → Option Nat) : Option SyncResult × DB :=
  match GetSyncState db c.accountId with
  | none => fullEmailSync c c.accountId mailboxID limit db now sf 0
  | some state =>
      if state.emailState = "" then fullEmailSync c c.accountId mailboxID limit db now sf 0
      else
        match c.getEmailChanges state.emailState with
        | none => fullEmailSync c c.accountId mailboxID limit db now sf 0
        | some changes =>
            match deleteEmailsLoop db changes.destroyed sf 0 0 with
            | (false, db1, _, _) => (none, db1)
            | (true, db1, k1, cnt) =>
                if (changes.created ++ changes.updated).length > 0 then
                  match c.getEmailsByIDs (changes.created ++ changes.updated) with
                  | none => (none, db1)
                  | some emails =>
                      match SaveEmails db1 c.accountId emails now (sf k1) with
                      | (false, db2) => (none, db2)
                      | (true, db2) =>
                          finishEmailSync state changes.newState db2 now sf (k1 + 1)
                            { mailboxesCreated := 0, mailboxesUpdated := 0, mailboxesDestroyed := 0
                              emailsCreated := changes.created.length
                              emailsUpdated := changes.updated.length
                              emailsDestroyed := cnt }
                else
                  finishEmailSync state changes.newState db1 now sf k1
                    { mailboxesCreated := 0, mailboxesUpdated := 0, mailboxesDestroyed := 0
                      emailsCreated := 0, emailsUpdated := 0, emailsDestroyed := cnt }

/-- The mailboxesLoadedMsg of the UI layer; the remote error is modelled as
a flag. -/
structure MailboxesLoadedMsg where
  mailboxes : List Mailbox
  fromCache : Bool
  errFlag : Bool
deriving DecidableEq, Repr

/-- App.loadMailboxesCacheFirst: cache read via the Syncer when present;
non-empty cache short-circuits with fromCache = true; otherwise one
client.GetMailboxes network call. Returns the message and the number of
remote-client invocations made. -/
def loadMailboxesCacheFirst (syncerPresent : Bool) (db : DB) (accountID : String)
    (remote : Option (List Mailbox)) : MailboxesLoadedMsg × Nat :=
  if syncerPresent then
    let cached := GetMailboxes db accountID
    if cached.length > 0 then ({ mailboxes := cached, fromCache := true, errFlag := false }, 0)
    else
      match remote with
      | none => ({ mailboxes := [], fromCache := false, errFlag := true }, 1)
      | some mbs => ({ mailboxes := mbs, fromCache := false, errFlag := false }, 1)
  else
    match remote with
    | none => ({ mailboxes := [], fromCache := false, errFlag := true }, 1)
    | some mbs => ({ mailboxes := mbs, fromCache := false, errFlag := false }, 1)

/-- The mailboxesLoadedMsg branch of App.Update restricted to its Store
effect: on error nothing, otherwise a network-sourced result is written
through with SaveMailboxes (whose error the source discards) before the
handler returns. -/
def handleMailboxesLoaded (storePresent : Bool) (db : DB) (accountID : String)
    (msg : MailboxesLoadedMsg) (now : Int) (failAt : Option Nat) : DB :=
  if msg.errFlag then db
  else if !msg.fromCache && storePresent then (SaveMailboxes db accountID msg.mailboxes now failAt).2
  else db

/-- The complete load-mailboxes path of the wired-up app (syncer and store
present): produce the message, then run the Update handler that persists a
network result. Returns (message, final store, remote invocations). -/
def loadMailboxesPipeline (db : DB) (accountID : String) (remote : Option (List Mailbox))
    (now : Int) (failAt : Option Nat) : MailboxesLoadedMsg × DB × Nat :=
  let r := loadMailboxesCacheFirst true db accountID remote
  (r.1, handleMailboxesLoaded true db accountID r.1 now failAt, r.2)

/-! Helper definitions used by the verification lemmas. -/

/-- The last element of `es` carrying the id `i` (the record whose row
survives a sequence of upserts). -/
def lastWithId (es : List Email) (i : String) : Option Email :=
  es.reverse.find? (fun e => e.id == i)

/-- The last element of `mbs` carrying the id `i`. -/
def lastWithIdMb (mbs : List Mailbox) (i : String) : Option Mailbox :=
  mbs.reverse.find? (fun m => m.id == i)

/-- A statement that can never hit a constraint violation. -/
def Infallible (s : Stmt) : Prop := ∀ db, (execStmt db s).isSome

/-- Classifier for the two statements that can hit a primary-key
violation (plain INSERTs). -/
def stmtFallible : Stmt → Bool
  | .insMailbox _ => true
  | .insMembership _ _ => true
  | _ => false

/-- Classifier for statements touching the sync_state table. -/
def touchesSyncStates : Stmt → Bool
  | .upsertSyncState _ => true
  | .delAllSyncStates => true
  | _ => false

/-- Classifier for statements touching the email_mailboxes table. -/
def touchesMemberships : Stmt → Bool
  | .insMembershipIgnore _ _ => true
  | .insMembership _ _ => true
  | .delMembershipsByEmail _ => true
  | .delAllMemberships => true
  | _ => false

/-- Classifier for the statements that can remove membership rows. -/
def dropsMemberships : Stmt → Bool
  | .delMembershipsByEmail _ => true
  | .delAllMemberships => true
  | _ => false

/-- Classifier for statements touching the emails table. -/
def touchesEmails : Stmt → Bool
  | .upsertEmail _ => true
  | .delEmailById _ => true
  | .updFlags _ _ _ _ => true
  | .delAllEmails => true
  | _ => false

/-- The net effect of SaveEmails on one email, with no failure injected. -/
def applyOneEmail (accountID : String) (now : Int) (db : DB) (e : Email) : DB :=
  (saveOneEmailStmts accountID e now).foldl applyStmt db

/-- The net effect of a successful SaveEmails. -/
def applyEmails (accountID : String) (now : Int) (db : DB) (es : List Email) : DB :=
  es.foldl (applyOneEmail accountID now) db

/-- The net effect of the destroyed-emails loop with no failure injected. -/
def applyDeleteEmails (db : DB) (ids : List String) : DB :=
  ids.foldl (fun d i => (DeleteEmail d i none).2) db

/-- The net effect of the destroyed-mailboxes loop with no failure
injected. -/
def applyDeleteMailboxes (db : DB) (ids : List String) : DB :=
  ids.foldl (fun d i => (DeleteMailbox d i none).2) db

/-- The net effect of the UpdateMailbox loop with no failure injected. -/
def applyUpdateMailboxes (db : DB) (accountID : String) (now : Int) (mbs : List Mailbox) : DB :=
  mbs.foldl (fun d mb => (UpdateMailbox d accountID mb now none).2) db

/-! Concrete fixtures used by counterexamples and witnesses. -/

/-- A client whose every call fails; fixtures override single calls. -/
def clientBase (a : String) : Client :=
  { accountId := a
    mailboxesWithState := none
    getMailboxChanges := fun _ => none
    getMailboxesByIDs := fun _ => none
    emailsWithState := fun _ _ => none
    getEmailChanges := fun _ => none
    getEmailsByIDs := fun _ => none }

/-- A concrete email record. -/
def sampleEmail (i : String) (mbs : List String) (u fl : Bool) : Email :=
  { id := i, threadId := "t1", mailboxIds := mbs
    fromJson := "[]", toJson := "[]", ccJson := "[]", replyToJson := "[]"
    subject := "subj", preview := "prev", textBody := "", htmlBody := ""
    receivedAt := 5, size := 10, isUnread := u, isFlagged := fl, isDraft := false
    hasAttachment := false, attachmentsJson := "" }

/-- A concrete mailbox record. -/
def sampleMailbox (i n : String) (so : Int) : Mailbox :=
  { id := i, name := n, role := "", parentId := "", totalEmails := 3, unreadCount := 1, sortOrder := so }

/-- A store holding one row in every table, for account "acct": email
"e1" in mailbox "inbox-1" with a cached body, and both sync tokens set. -/
def wdb : DB :=
  { mailboxes := [mailboxToRow "acct" (sampleMailbox "inbox-1" "Inbox" 0) 1]
    emails := [emailToRow "acct" (sampleEmail "e1" ["inbox-1"] true false) 1]
    emailMailboxes := [("e1", "inbox-1")]
    emailBodies := [⟨"e1", "text", "html", "[]", 4⟩]
    syncStates := [⟨"acct", "MS1", "ES1", 3⟩] }

/-- Store with an old email and no sync state: drives the C1 full email
sync counterexample. -/
def c1db : DB :=
  { mailboxes := [], emails := [emailToRow "acct" (sampleEmail "old1" ["inbox-1"] true false) 1]
    emailMailboxes := [("old1", "inbox-1")], emailBodies := [], syncStates := [] }

/-- Client whose full email fetch returns a single new email "e9". -/
def c1client : Client :=
  { clientBase "acct" with emailsWithState := fun _ _ => some ([sampleEmail "e9" ["inbox-1"] true false], "T2") }

/-- Client whose mailbox delta succeeds naming "m9" as created but whose
fetch-by-ids call fails: drives the C3 counterexample. -/
def c3client : Client :=
  { clientBase "acct" with getMailboxChanges := fun _ => some ⟨["m9"], [], [], "MS2"⟩ }

/-- Store whose account has an empty mailbox token but a live email token
"T1"; client serving a full mailbox fetch: drives the C4 failing input. -/
def c4db : DB :=
  { mailboxes := [], emails := [], emailMailboxes := [], emailBodies := []
    syncStates := [⟨"acct", "", "T1", 3⟩] }

/-- Client serving a full mailbox fetch with new token "M2". -/
def c4client : Client :=
  { clientBase "acct" with mailboxesWithState := some ([sampleMailbox "inbox-1" "Inbox" 0], "M2") }

/-- Client whose deltas report the same id as destroyed and created, for
both entity types: drives the C5 witness. -/
def c5client : Client :=
  { clientBase "acct" with
    getMailboxChanges := fun _ => some ⟨["mb-9"], [], ["mb-9"], "MS2"⟩
    getMailboxesByIDs := fun _ => some [sampleMailbox "mb-9" "Nine" 1]
    getEmailChanges := fun _ => some ⟨["e9"], [], ["e9"], "ES2"⟩
    getEmailsByIDs := fun _ => some [sampleEmail "e9" ["archive-1"] true false] }

/-- Client whose fetch calls all answer (the delta calls still fail):
drives the C3 no-error witness. -/
def cGood : Client :=
  { clientBase "acct" with
    mailboxesWithState := some ([sampleMailbox "inbox-1" "Inbox" 0], "M2")
    getMailboxesByIDs := fun _ => some []
    emailsWithState := fun _ _ => some ([sampleEmail "e9" ["inbox-1"] true false], "E2")
    getEmailsByIDs := fun _ => some [] }

/-- The empty store. -/
def dbEmpty : DB :=
  { mailboxes := [], emails := [], emailMailboxes := [], emailBodies := [], syncStates := [] }

/-- The store state after persisting one fetched mailbox into the empty
store at time 7: drives the C9 cache-miss witness. -/
def c9db1 : DB :=
  { mailboxes := [mailboxToRow "acct" (sampleMailbox "inbox-1" "Inbox" 0) 7]
    emails := [], emailMailboxes := [], emailBodies := [], syncStates := [] }

/-- c4db after a successful SaveMailboxes of one fetched mailbox at time
77: drives the C1 mailbox-side witness. -/
def c1wdb1 : DB :=
  { mailboxes := [mailboxToRow "acct" (sampleMailbox "inbox-1" "Inbox" 0) 77]
    emails := [], emailMailboxes := [], emailBodies := []
    syncStates := [⟨"acct", "", "T1", 3⟩] }

/-! Generic lemmas about the statement executor. -/

theorem runTx_rollback (db : DB) (stmts : List Stmt) (f : Option Nat)
    (h : (runTx db stmts f).1 = false) : (runTx db stmts f).2 = db := by
  unfold runTx at h ⊢
  cases hr : runStmts db stmts f 0 <;> simp [hr] at h ⊢

theorem infallible_of_not_fallible (s : Stmt) (h : stmtFallible s = false) : Infallible s := by
  intro db
  cases s <;> simp_all [stmtFallible, execStmt]

theorem execStmt_eq_applyStmt (s : Stmt) (hs : Infallible s) (db : DB) :
    execStmt db s = some (applyStmt db s) := by
  have h := hs db
  cases he : execStmt db s
  · rw [he] at h; simp at h
  · simp [applyStmt, he]

theorem runStmts_of_infallible (stmts : List Stmt) (h : ∀ s ∈ stmts, Infallible s) :
    ∀ (db : DB) (i : Nat), runStmts db stmts none i = some (stmts.foldl applyStmt db) := by
  induction stmts with
  | nil => intro db i; simp [runStmts]
  | cons s rest ih =>
      intro db i
      have hs : Infallible s := h s (by simp)
      simp only [runStmts, execStmt_eq_applyStmt s hs db, List.foldl_cons]
      simp only [reduceCtorEq, if_false]
      exact ih (fun t ht => h t (by simp [ht])) (applyStmt db s) (i + 1)

theorem runTx_of_infallible (db : DB) (stmts : List Stmt) (h : ∀ s ∈ stmts, Infallible s) :
    runTx db stmts none = (true, stmts.foldl applyStmt db) := by
  simp [runTx, runStmts_of_infallible stmts h db 0]

theorem runDirect_of_infallible (stmts : List Stmt) (h : ∀ s ∈ stmts, Infallible s) :
    ∀ (db : DB) (i : Nat), runDirect db stmts none i = (true, stmts.foldl applyStmt db) := by
  induction stmts with
  | nil => intro db i; simp [runDirect]
  | cons s rest ih =>
      intro db i
      have hs : Infallible s := h s (by simp)
      simp only [runDirect, execStmt_eq_applyStmt s hs db, List.foldl_cons]
      simp only [reduceCtorEq, if_false]
      exact ih (fun t ht => h t (by simp [ht])) (applyStmt db s) (i + 1)

theorem execStmt_syncStates_frame (s : Stmt) (hs : touchesSyncStates s = false) :
    ∀ db db' : DB, execStmt db s = some db' → db'.syncStates = db.syncStates := by
  intro db db' h
  cases s <;> simp [touchesSyncStates] at hs <;> simp only [execStmt] at h <;>
    (try split at h) <;> (try cases h) <;> rfl

theorem runStmts_syncStates_frame (stmts : List Stmt)
    (h : ∀ s ∈ stmts, touchesSyncStates s = false) :
    ∀ (db db' : DB) (f : Option Nat) (i : Nat),
      runStmts db stmts f i = some db' → db'.syncStates = db.syncStates := by
  induction stmts with
  | nil => intro db db' f i hr; simp [runStmts] at hr; rw [← hr]
  | cons s rest ih =>
      intro db db' f i hr
      simp only [runStmts] at hr
      split at hr
      · cases hr
      · cases he : execStmt db s with
        | none => rw [he] at hr; cases hr
        | some db1 =>
            rw [he] at hr
            have h1 := execStmt_syncStates_frame s (h s (by simp)) db db1 he
            have h2 := ih (fun t ht => h t (by simp [ht])) db1 db' f (i + 1) hr
            rw [h2, h1]

theorem runTx_syncStates_frame (db : DB) (stmts : List Stmt) (f : Option Nat)
    (h : ∀ s ∈ stmts, touchesSyncStates s = false) :
    (runTx db stmts f).2.syncStates = db.syncStates := by
  unfold runTx
  cases hr : runStmts db stmts f 0 with
  | none => rfl
  | some db' => exact runStmts_syncStates_frame stmts h db db' f 0 hr

theorem runDirect_syncStates_frame (stmts : List Stmt)
    (h : ∀ s ∈ stmts, touchesSyncStates s = false) :
    ∀ (db : DB) (f : Option Nat) (i : Nat),
      (runDirect db stmts f i).2.syncStates = db.syncStates := by
  induction stmts with
  | nil => intro db f i; rfl
  | cons s rest ih =>
      intro db f i
      simp only [runDirect]
      split
      · rfl
      · cases he : execStmt db s with
        | none => rfl
        | some db1 =>
            have h1 := execStmt_syncStates_frame s (h s (by simp)) db db1 he
            have h2 := ih (fun t ht => h t (by simp [ht])) db1 f (i + 1)
            rw [h2, h1]

theorem execStmt_membership_mono (s : Stmt) (hs : dropsMemberships s = false) :
    ∀ (db db' : DB) (p : String × String),
      execStmt db s = some db' → p ∈ db.emailMailboxes → p ∈ db'.emailMailboxes := by
  intro db db' p h hp
  cases s <;> simp [dropsMemberships] at hs <;> simp only [execStmt] at h <;>
    (try split at h) <;> (try cases h) <;>
    first
    | exact hp
    | exact List.mem_append_left _ hp

theorem runStmts_membership_mono (stmts : List Stmt)
    (h : ∀ s ∈ stmts, dropsMemberships s = false) :
    ∀ (db db' : DB) (f : Option Nat) (i : Nat) (p : String × String),
      runStmts db stmts f i = some db' → p ∈ db.emailMailboxes → p ∈ db'.emailMailboxes := by
  induction stmts with
  | nil => intro db db' f i p hr hp; simp [runStmts] at hr; rw [← hr]; exact hp
  | cons s rest ih =>
      intro db db' f i p hr hp
      simp only [runStmts] at hr
      split at hr
      · cases hr
      · cases he : execStmt db s with
        | none => rw [he] at hr; cases hr
        | some db1 =>
            rw [he] at hr
            exact ih (fun t ht => h t (by simp [ht])) db1 db' f (i + 1) p hr
              (execStmt_membership_mono s (h s (by simp)) db db1 p he hp)

theorem runTx_membership_mono (db : DB) (stmts : List Stmt) (f : Option Nat)
    (h : ∀ s ∈ stmts, dropsMemberships s = false) (p : String × String)
    (hp : p ∈ db.emailMailboxes) : p ∈ (runTx db stmts f).2.emailMailboxes := by
  unfold runTx
  cases hr : runStmts db stmts f 0 with
  | none => exact hp
  | some db' => exact runStmts_membership_mono stmts h db db' f 0 p hr hp

theorem execStmt_membership_frame (s : Stmt) (hs : touchesMemberships s = false) :
    ∀ db db' : DB, execStmt db s = some db' → db'.emailMailboxes = db.emailMailboxes := by
  intro db db' h
  cases s <;> simp [touchesMemberships] at hs <;> simp only [execStmt] at h <;>
    (try split at h) <;> (try cases h) <;> rfl

theorem runDirect_membership_frame (stmts : List Stmt)
    (h : ∀ s ∈ stmts, touchesMemberships s = false) :
    ∀ (db : DB) (f : Option Nat) (i : Nat),
      (runDirect db stmts f i).2.emailMailboxes = db.emailMailboxes := by
  induction stmts with
  | nil => intro db f i; rfl
  | cons s rest ih =>
      intro db f i
      simp only [runDirect]
      split
      · rfl
      · cases he : execStmt db s with
        | none => rfl
        | some db1 =>
            have h1 := execStmt_membership_frame s (h s (by simp)) db db1 he
            have h2 := ih (fun t ht => h t (by simp [ht])) db1 f (i + 1)
            rw [h2, h1]

theorem runStmts_membership_frame (stmts : List Stmt)
    (h : ∀ s ∈ stmts, touchesMemberships s = false) :
    ∀ (db db' : DB) (f : Option Nat) (i : Nat),
      runStmts db stmts f i = some db' → db'.emailMailboxes = db.emailMailboxes := by
  induction stmts with
  | nil => intro db db' f i hr; simp [runStmts] at hr; rw [← hr]
  | cons s rest ih =>
      intro db db' f i hr
      simp only [runStmts] at hr
      split at hr
      · cases hr
      · cases he : execStmt db s with
        | none => rw [he] at hr; cases hr
        | some db1 =>
            rw [he] at hr
            have h1 := execStmt_membership_frame s (h s (by simp)) db db1 he
            have h2 := ih (fun t ht => h t (by simp [ht])) db1 db' f (i + 1) hr
            rw [h2, h1]

theorem runTx_membership_frame (db : DB) (stmts : List Stmt) (f : Option Nat)
    (h : ∀ s ∈ stmts, touchesMemberships s = false) :
    (runTx db stmts f).2.emailMailboxes = db.emailMailboxes := by
  unfold runTx
  cases hr : runStmts db stmts f 0 with
  | none => rfl
  | some db' => exact runStmts_membership_frame stmts h db db' f 0 hr

/-! Keyed-list lookup lemmas: the effect of SQL upsert and delete on row
lookup by primary key. -/

theorem find?_filter_of_imp {α : Type} (l : List α) (p q : α → Bool)
    (h : ∀ x, p x = true → q x = true) : (l.filter q).find? p = l.find? p := by
  induction l with
  | nil => simp
  | cons a t ih =>
      cases hq : q a with
      | true =>
          cases hp : p a with
          | true => simp [List.filter_cons, hq, List.find?_cons_of_pos, hp]
          | false => simp [List.filter_cons, hq, List.find?_cons_of_neg, hp, ih]
      | false =>
          have hp : p a = false := by
            cases hpa : p a with
            | true => rw [h a hpa] at hq; cases hq
            | false => rfl
          simp [List.filter_cons, hq, List.find?_cons_of_neg, hp, ih]

theorem find?_upsert_key {α : Type} (key : α → String) (l : List α) (r : α) (i : String) :
    ((l.filter fun x => !(key x == key r)) ++ [r]).find? (fun x => key x == i) =
      if i = key r then some r else l.find? (fun x => key x == i) := by
  rw [List.find?_append]
  by_cases hi : i = key r
  · have h1 : (l.filter fun x => !(key x == key r)).find? (fun x => key x == i) = none := by
      rw [List.find?_eq_none]
      intro x hx
      have hne := (List.mem_filter.mp hx).2
      rw [hi]
      simpa using hne
    have h2 : ([r].find? fun x => key x == i) = some r := by
      simp [List.find?, hi]
    simp [h1, h2, hi]
  · have h2 : ((l.filter fun x => !(key x == key r)).find? fun x => key x == i) =
        l.find? (fun x => key x == i) := by
      apply find?_filter_of_imp
      intro x hx
      have hxi : key x = i := by simpa using hx
      simp only [hxi, Bool.not_eq_true']
      exact beq_eq_false_iff_ne.mpr hi
    have h3 : ((key r == i) : Bool) = false :=
      beq_eq_false_iff_ne.mpr (fun hc => hi hc.symm)
    rw [h2]
    cases hf : l.find? (fun x => key x == i) <;> simp [List.find?, h3, hi]

theorem find?_remove_key {α : Type} (key : α → String) (l : List α) (j i : String) :
    ((l.filter fun x => !(key x == j)).find? fun x => key x == i) =
      if i = j then none else l.find? (fun x => key x == i) := by
  by_cases hi : i = j
  · rw [if_pos hi, List.find?_eq_none]
    intro x hx
    have hne := (List.mem_filter.mp hx).2
    rw [hi]
    simpa using hne
  · rw [if_neg hi]
    apply find?_filter_of_imp
    intro x hx
    have hxi : key x = i := by simpa using hx
    simp only [hxi, Bool.not_eq_true']
    exact beq_eq_false_iff_ne.mpr hi

/-! The effect of a successful SaveEmails. -/

theorem applyStmt_syncStates_frame (s : Stmt) (hs : touchesSyncStates s = false) (db : DB) :
    (applyStmt db s).syncStates = db.syncStates := by
  unfold applyStmt
  cases he : execStmt db s with
  | none => rfl
  | some db1 => exact execStmt_syncStates_frame s hs db db1 he

theorem foldl_applyStmt_syncStates_frame (stmts : List Stmt)
    (h : ∀ s ∈ stmts, touchesSyncStates s = false) :
    ∀ db : DB, (stmts.foldl applyStmt db).syncStates = db.syncStates := by
  induction stmts with
  | nil => intro db; rfl
  | cons s rest ih =>
      intro db
      rw [List.foldl_cons, ih (fun t ht => h t (by simp [ht])),
        applyStmt_syncStates_frame s (h s (by simp))]

theorem execStmt_emails_frame (s : Stmt) (hs : touchesEmails s = false) :
    ∀ db db' : DB, execStmt db s = some db' → db'.emails = db.emails := by
  intro db db' h
  cases s <;> simp [touchesEmails] at hs <;> simp only [execStmt] at h <;>
    (try split at h) <;> (try cases h) <;> rfl

theorem applyStmt_emails_frame (s : Stmt) (hs : touchesEmails s = false) (db : DB) :
    (applyStmt db s).emails = db.emails := by
  unfold applyStmt
  cases he : execStmt db s with
  | none => rfl
  | some db1 => exact execStmt_emails_frame s hs db db1 he

theorem foldl_applyStmt_emails_frame (stmts : List Stmt)
    (h : ∀ s ∈ stmts, touchesEmails s = false) :
    ∀ db : DB, (stmts.foldl applyStmt db).emails = db.emails := by
  induction stmts with
  | nil => intro db; rfl
  | cons s rest ih =>
      intro db
      rw [List.foldl_cons, ih (fun t ht => h t (by simp [ht])),
        applyStmt_emails_frame s (h s (by simp))]

theorem saveOneEmailStmts_shape (a : String) (e : Email) (now : Int) :
    ∀ s ∈ saveOneEmailStmts a e now,
      s = .upsertEmail (emailToRow a e now) ∨ ∃ m, s = .insMembershipIgnore e.id m := by
  intro s hs
  simp only [saveOneEmailStmts, List.mem_cons, List.mem_map] at hs
  rcases hs with h | ⟨m, _, h⟩
  · exact Or.inl h
  · exact Or.inr ⟨m, h.symm⟩

theorem saveEmailsStmts_shape (a : String) (es : List Email) (now : Int) :
    ∀ s ∈ saveEmailsStmts a es now,
      (∃ e, s = .upsertEmail e) ∨ ∃ x m, s = .insMembershipIgnore x m := by
  intro s hs
  simp only [saveEmailsStmts, List.mem_flatten, List.mem_map] at hs
  rcases hs with ⟨l, ⟨e, _, hl⟩, hsl⟩
  rcases saveOneEmailStmts_shape a e now s (hl ▸ hsl) with h | ⟨m, h⟩
  · exact Or.inl ⟨emailToRow a e now, h⟩
  · exact Or.inr ⟨e.id, m, h⟩

theorem saveEmailsStmts_infallible (a : String) (es : List Email) (now : Int) :
    ∀ s ∈ saveEmailsStmts a es now, Infallible s := by
  intro s hs
  apply infallible_of_not_fallible
  rcases saveEmailsStmts_shape a es now s hs with ⟨e, h⟩ | ⟨x, m, h⟩ <;> subst h <;> rfl

theorem saveEmailsStmts_no_drop (a : String) (es : List Email) (now : Int) :
    ∀ s ∈ saveEmailsStmts a es now, dropsMemberships s = false := by
  intro s hs
  rcases saveEmailsStmts_shape a es now s hs with ⟨e, h⟩ | ⟨x, m, h⟩ <;> subst h <;> rfl

theorem saveEmailsStmts_no_syncStates (a : String) (es : List Email) (now : Int) :
    ∀ s ∈ saveEmailsStmts a es now, touchesSyncStates s = false := by
  intro s hs
  rcases saveEmailsStmts_shape a es now s hs with ⟨e, h⟩ | ⟨x, m, h⟩ <;> subst h <;> rfl

theorem foldl_saveEmailsStmts (a : String) (es : List Email) (now : Int) :
    ∀ db : DB, (saveEmailsStmts a es now).foldl applyStmt db = applyEmails a now db es := by
  induction es with
  | nil => intro db; simp [saveEmailsStmts, applyEmails]
  | cons e t ih =>
      intro db
      simp only [saveEmailsStmts, List.map_cons, List.flatten_cons, List.foldl_append,
        applyEmails, List.foldl_cons]
      exact ih (applyOneEmail a now db e)

theorem saveEmails_run (db : DB) (a : String) (es : List Email) (now : Int) :
    SaveEmails db a es now none = (true, applyEmails a now db es) := by
  unfold SaveEmails
  rw [runTx_of_infallible db _ (saveEmailsStmts_infallible a es now),
    foldl_saveEmailsStmts a es now db]

theorem applyOneEmail_emails (a : String) (now : Int) (db : DB) (e : Email) :
    (applyOneEmail a now db e).emails =
      db.emails.filter (fun x => !(x.id == e.id)) ++ [emailToRow a e now] := by
  unfold applyOneEmail saveOneEmailStmts
  rw [List.foldl_cons]
  rw [foldl_applyStmt_emails_frame _ (by
    intro s hs
    simp only [List.mem_map] at hs
    rcases hs with ⟨m, _, h⟩
    subst h
    rfl)]
  simp [applyStmt, execStmt, emailToRow]

theorem findEmailRow_applyOneEmail (a : String) (now : Int) (db : DB) (e : Email) (i : String) :
    findEmailRow (applyOneEmail a now db e).emails i =
      if i = e.id then some (emailToRow a e now) else findEmailRow db.emails i := by
  rw [applyOneEmail_emails]
  unfold findEmailRow
  have h := find?_upsert_key (fun x : EmailRow => x.id) db.emails (emailToRow a e now) i
  simpa [emailToRow] using h

theorem lastWithId_cons (e : Email) (es : List Email) (i : String) :
    lastWithId (e :: es) i =
      (match lastWithId es i with
       | some x => some x
       | none => if e.id == i then some e else none) := by
  unfold lastWithId
  rw [List.reverse_cons, List.find?_append]
  cases h : es.reverse.find? (fun x => x.id == i) <;> simp [List.find?]
  cases hb : (e.id == i : Bool) <;> simp_all

theorem applyEmails_lookup (a : String) (now : Int) (es : List Email) (i : String) :
    ∀ db : DB, findEmailRow (applyEmails a now db es).emails i =
      (match lastWithId es i with
       | some e => some (emailToRow a e now)
       | none => findEmailRow db.emails i) := by
  induction es with
  | nil => intro db; simp [applyEmails, lastWithId]
  | cons e t ih =>
      intro db
      have hstep : applyEmails a now db (e :: t) = applyEmails a now (applyOneEmail a now db e) t := by
        simp [applyEmails]
      rw [hstep, ih (applyOneEmail a now db e), lastWithId_cons]
      cases h : lastWithId t i with
      | some x => rfl
      | none =>
          cases hb : (e.id == i : Bool) with
          | true =>
              have : i = e.id := (beq_iff_eq.mp hb).symm
              simp [findEmailRow_applyOneEmail, this]
          | false =>
              have : ¬ i = e.id := fun hc => by simp [hc] at hb
              simp [findEmailRow_applyOneEmail, this]

theorem applyEmails_retains (a : String) (now : Int) (es : List Email) :
    ∀ (db : DB) (r : EmailRow), r ∈ db.emails → (∀ e ∈ es, ¬ e.id = r.id) →
      r ∈ (applyEmails a now db es).emails := by
  induction es with
  | nil => intro db r hr _; exact hr
  | cons e t ih =>
      intro db r hr hne
      have hstep : applyEmails a now db (e :: t) = applyEmails a now (applyOneEmail a now db e) t := by
        simp [applyEmails]
      rw [hstep]
      apply ih _ r _ (fun x hx => hne x (by simp [hx]))
      rw [applyOneEmail_emails]
      apply List.mem_append_left
      rw [List.mem_filter]
      refine ⟨hr, ?_⟩
      have := hne e (by simp)
      simp
      exact fun hc => this hc.symm

theorem applyEmails_syncStates (a : String) (now : Int) (db : DB) (es : List Email) :
    (applyEmails a now db es).syncStates = db.syncStates := by
  rw [← foldl_saveEmailsStmts a es now db]
  exact foldl_applyStmt_syncStates_frame _ (saveEmailsStmts_no_syncStates a es now) db

/-! Single-statement store operations and the Syncer's loops. -/

theorem saveSyncState_none (db : DB) (st : SyncStateRow) :
    SaveSyncState db st none = (true, applyStmt db (.upsertSyncState st)) := by
  simp [SaveSyncState, runDirect, execStmt, applyStmt]

theorem saveSyncState_fail (db : DB) (st : SyncStateRow) (f : Option Nat)
    (h : (SaveSyncState db st f).1 = false) : (SaveSyncState db st f).2 = db := by
  cases f with
  | none => simp [SaveSyncState, runDirect, execStmt] at h
  | some n =>
      cases n with
      | zero => rfl
      | succ m => simp [SaveSyncState, runDirect, execStmt] at h

theorem updateMailbox_none (db : DB) (a : String) (mb : Mailbox) (now : Int) :
    UpdateMailbox db a mb now none = (true, applyStmt db (.upsertMailbox (mailboxToRow a mb now))) := by
  simp [UpdateMailbox, runDirect, execStmt, applyStmt]

theorem deleteMailbox_none (db : DB) (i : String) :
    DeleteMailbox db i none = (true, applyStmt db (.delMailboxById i)) := by
  simp [DeleteMailbox, runDirect, execStmt, applyStmt]

theorem deleteEmail_none_ok (db : DB) (i : String) : (DeleteEmail db i none).1 = true := by
  simp [DeleteEmail, runTx, runStmts, execStmt]

theorem deleteEmailsLoop_none (ids : List String) :
    ∀ (db : DB) (k cnt : Nat), deleteEmailsLoop db ids sfNone k cnt =
      (true, applyDeleteEmails db ids, k + ids.length, cnt + ids.length) := by
  induction ids with
  | nil => intro db k cnt; simp [deleteEmailsLoop, applyDeleteEmails]
  | cons i rest ih =>
      intro db k cnt
      have h1 : (DeleteEmail db i none).1 = true := deleteEmail_none_ok db i
      cases hD : DeleteEmail db i none with
      | mk b db' =>
          rw [hD] at h1
          subst h1
          simp only [deleteEmailsLoop, sfNone, hD]
          rw [ih db' (k + 1) (cnt + 1)]
          have h2 : applyDeleteEmails db (i :: rest) = applyDeleteEmails db' rest := by
            simp [applyDeleteEmails, sfNone, hD]
          rw [h2]
          simp only [List.length_cons]
          have h3 : k + 1 + rest.length = k + (rest.length + 1) := by omega
          have h4 : cnt + 1 + rest.length = cnt + (rest.length + 1) := by omega
          rw [h3, h4]

theorem deleteMailboxesLoop_none (ids : List String) :
    ∀ (db : DB) (k cnt : Nat), deleteMailboxesLoop db ids sfNone k cnt =
      (true, applyDeleteMailboxes db ids, k + ids.length, cnt + ids.length) := by
  induction ids with
  | nil => intro db k cnt; simp [deleteMailboxesLoop, applyDeleteMailboxes]
  | cons i rest ih =>
      intro db k cnt
      cases hD : DeleteMailbox db i none with
      | mk b db' =>
          have h1 : b = true := by
            have := deleteMailbox_none db i
            rw [hD] at this
            exact congrArg Prod.fst this
          subst h1
          simp only [deleteMailboxesLoop, sfNone, hD]
          rw [ih db' (k + 1) (cnt + 1)]
          have h2 : applyDeleteMailboxes db (i :: rest) = applyDeleteMailboxes db' rest := by
            simp [applyDeleteMailboxes, sfNone, hD]
          rw [h2]
          simp only [List.length_cons]
          have h3 : k + 1 + rest.length = k + (rest.length + 1) := by omega
          have h4 : cnt + 1 + rest.length = cnt + (rest.length + 1) := by omega
          rw [h3, h4]

theorem updateMailboxesLoop_none (a : String) (now : Int) (mbs : List Mailbox) :
    ∀ (db : DB) (k : Nat), updateMailboxesLoop db a mbs now sfNone k =
      (true, applyUpdateMailboxes db a now mbs, k + mbs.length) := by
  induction mbs with
  | nil => intro db k; simp [updateMailboxesLoop, applyUpdateMailboxes]
  | cons mb rest ih =>
      intro db k
      cases hD : UpdateMailbox db a mb now none with
      | mk b db' =>
          have h1 : b = true := by
            have := updateMailbox_none db a mb now
            rw [hD] at this
            exact congrArg Prod.fst this
          subst h1
          simp only [updateMailboxesLoop, sfNone, hD]
          rw [ih db' (k + 1)]
          have h2 : applyUpdateMailboxes db a now (mb :: rest) = applyUpdateMailboxes db' a now rest := by
            simp [applyUpdateMailboxes, sfNone, hD]
          rw [h2]
          simp only [List.length_cons]
          have h3 : k + 1 + rest.length = k + (rest.length + 1) := by omega
          rw [h3]

/-! The effect of a successful SaveMailboxes, and per-operation frames on
the sync_state table. -/

theorem runStmts_insMailboxes (rows : List MailboxRow) :
    ∀ (db db' : DB) (i : Nat), runStmts db (rows.map Stmt.insMailbox) none i = some db' →
      db' = { db with mailboxes := db.mailboxes ++ rows } := by
  induction rows with
  | nil =>
      intro db db' i h
      simp [runStmts] at h
      simp [← h]
  | cons r rest ih =>
      intro db db' i h
      simp only [List.map_cons, runStmts, reduceCtorEq, if_false] at h
      cases he : execStmt db (.insMailbox r) with
      | none => rw [he] at h; cases h
      | some db1 =>
          rw [he] at h
          simp only [execStmt] at he
          split at he
          · cases he
          · cases he
            have := ih _ db' (i + 1) h
            rw [this]
            simp

theorem saveMailboxes_ok (db : DB) (a : String) (mbs : List Mailbox) (now : Int) (db1 : DB)
    (h : SaveMailboxes db a mbs now none = (true, db1)) :
    db1 = { db with
            mailboxes := db.mailboxes.filter (fun x => !(x.accountId == a)) ++ mbs.map (fun mb => mailboxToRow a mb now) } := by
  unfold SaveMailboxes runTx at h
  cases hr : runStmts db (saveMailboxesStmts a mbs now) none 0 with
  | none => rw [hr] at h; cases h
  | some db2 =>
      rw [hr] at h
      cases h
      unfold saveMailboxesStmts at hr
      simp only [runStmts, reduceCtorEq, if_false, execStmt] at hr
      have hmm : (mbs.map fun mb => Stmt.insMailbox (mailboxToRow a mb now)) =
          (mbs.map fun mb => mailboxToRow a mb now).map Stmt.insMailbox := by
        rw [List.map_map]
        rfl
      rw [hmm] at hr
      exact runStmts_insMailboxes _ _ _ _ hr

theorem saveMailboxesStmts_shape (a : String) (mbs : List Mailbox) (now : Int) :
    ∀ s ∈ saveMailboxesStmts a mbs now,
      s = .delMailboxesByAccount a ∨ ∃ r, s = .insMailbox r := by
  intro s hs
  simp only [saveMailboxesStmts, List.mem_cons, List.mem_map] at hs
  rcases hs with h | ⟨mb, _, h⟩
  · exact Or.inl h
  · exact Or.inr ⟨mailboxToRow a mb now, h.symm⟩

theorem saveMailboxes_syncFrame (db : DB) (a : String) (mbs : List Mailbox) (now : Int)
    (f : Option Nat) : (SaveMailboxes db a mbs now f).2.syncStates = db.syncStates := by
  apply runTx_syncStates_frame
  intro s hs
  rcases saveMailboxesStmts_shape a mbs now s hs with h | ⟨r, h⟩ <;> subst h <;> rfl

theorem saveEmails_syncFrame (db : DB) (a : String) (es : List Email) (now : Int)
    (f : Option Nat) : (SaveEmails db a es now f).2.syncStates = db.syncStates := by
  exact runTx_syncStates_frame db _ f (saveEmailsStmts_no_syncStates a es now)

theorem deleteEmail_syncFrame (db : DB) (i : String) (f : Option Nat) :
    (DeleteEmail db i f).2.syncStates = db.syncStates := by
  apply runTx_syncStates_frame
  intro s hs
  simp only [List.mem_cons, List.not_mem_nil, or_false] at hs
  rcases hs with h | h | h <;> subst h <;> rfl

theorem deleteMailbox_syncFrame (db : DB) (i : String) (f : Option Nat) :
    (DeleteMailbox db i f).2.syncStates = db.syncStates := by
  apply runDirect_syncStates_frame
  intro s hs
  simp only [List.mem_singleton] at hs
  subst hs
  rfl

theorem updateMailbox_syncFrame (db : DB) (a : String) (mb : Mailbox) (now : Int)
    (f : Option Nat) : (UpdateMailbox db a mb now f).2.syncStates = db.syncStates := by
  apply runDirect_syncStates_frame
  intro s hs
  simp only [List.mem_singleton] at hs
  subst hs
  rfl

theorem deleteEmailsLoop_syncFrame (ids : List String) :
    ∀ (db : DB) (sf : Nat → Option Nat) (k cnt : Nat),
      (deleteEmailsLoop db ids sf k cnt).2.1.syncStates = db.syncStates := by
  induction ids with
  | nil => intro db sf k cnt; rfl
  | cons i rest ih =>
      intro db sf k cnt
      cases hD : DeleteEmail db i (sf k) with
      | mk b db' =>
          have hf : db'.syncStates = db.syncStates := by
            have := deleteEmail_syncFrame db i (sf k)
            rw [hD] at this
            exact this
          cases b <;> simp only [deleteEmailsLoop, hD] <;>
            first
            | exact hf
            | rw [ih db' sf (k + 1) (cnt + 1), hf]

theorem deleteMailboxesLoop_syncFrame (ids : List String) :
    ∀ (db : DB) (sf : Nat → Option Nat) (k cnt : Nat),
      (deleteMailboxesLoop db ids sf k cnt).2.1.syncStates = db.syncStates := by
  induction ids with
  | nil => intro db sf k cnt; rfl
  | cons i rest ih =>
      intro db sf k cnt
      cases hD : DeleteMailbox db i (sf k) with
      | mk b db' =>
          have hf : db'.syncStates = db.syncStates := by
            have := deleteMailbox_syncFrame db i (sf k)
            rw [hD] at this
            exact this
          cases b <;> simp only [deleteMailboxesLoop, hD] <;>
            first
            | exact hf
            | rw [ih db' sf (k + 1) (cnt + 1), hf]

theorem updateMailboxesLoop_syncFrame (a : String) (now : Int) (mbs : List Mailbox) :
    ∀ (db : DB) (sf : Nat → Option Nat) (k : Nat),
      (updateMailboxesLoop db a mbs now sf k).2.1.syncStates = db.syncStates := by
  induction mbs with
  | nil => intro db sf k; rfl
  | cons mb rest ih =>
      intro db sf k
      cases hD : UpdateMailbox db a mb now (sf k) with
      | mk b db' =>
          have hf : db'.syncStates = db.syncStates := by
            have := updateMailbox_syncFrame db a mb now (sf k)
            rw [hD] at this
            exact this
          cases b <;> simp only [updateMailboxesLoop, hD] <;>
            first
            | exact hf
            | rw [ih db' sf (k + 1), hf]

/-! Lookup after the UpdateMailbox loop, and the two full-sync routines. -/

theorem findMailboxRow_updateOne (db : DB) (a : String) (mb : Mailbox) (now : Int) (i : String) :
    findMailboxRow ((UpdateMailbox db a mb now none).2).mailboxes i =
      if i = mb.id then some (mailboxToRow a mb now) else findMailboxRow db.mailboxes i := by
  rw [updateMailbox_none]
  have hm : (applyStmt db (.upsertMailbox (mailboxToRow a mb now))).mailboxes =
      db.mailboxes.filter (fun x => !(x.id == mb.id)) ++ [mailboxToRow a mb now] := by
    simp [applyStmt, execStmt, mailboxToRow]
  rw [hm]
  unfold findMailboxRow
  have h := find?_upsert_key (fun x : MailboxRow => x.id) db.mailboxes (mailboxToRow a mb now) i
  simpa [mailboxToRow] using h

theorem lastWithIdMb_cons (mb : Mailbox) (mbs : List Mailbox) (i : String) :
    lastWithIdMb (mb :: mbs) i =
      (match lastWithIdMb mbs i with
       | some x => some x
       | none => if mb.id == i then some mb else none) := by
  unfold lastWithIdMb
  rw [List.reverse_cons, List.find?_append]
  cases h : mbs.reverse.find? (fun x => x.id == i) <;> simp [List.find?]
  cases hb : (mb.id == i : Bool) <;> simp_all

theorem applyUpdateMailboxes_lookup (a : String) (now : Int) (mbs : List Mailbox) (i : String) :
    ∀ db : DB, findMailboxRow (applyUpdateMailboxes db a now mbs).mailboxes i =
      (match lastWithIdMb mbs i with
       | some mb => some (mailboxToRow a mb now)
       | none => findMailboxRow db.mailboxes i) := by
  induction mbs with
  | nil => intro db; simp [applyUpdateMailboxes, lastWithIdMb]
  | cons mb t ih =>
      intro db
      have hstep : applyUpdateMailboxes db a now (mb :: t) =
          applyUpdateMailboxes ((UpdateMailbox db a mb now none).2) a now t := by
        simp [applyUpdateMailboxes]
      rw [hstep, ih ((UpdateMailbox db a mb now none).2), lastWithIdMb_cons]
      cases h : lastWithIdMb t i with
      | some x => rfl
      | none =>
          cases hb : (mb.id == i : Bool) with
          | true =>
              have hbi : i = mb.id := (beq_iff_eq.mp hb).symm
              simp [findMailboxRow_updateOne, hbi]
          | false =>
              have hbi : ¬ i = mb.id := fun hc => by simp [hc] at hb
              simp [findMailboxRow_updateOne, hbi]

theorem fullMailboxSync_run (c : Client) (a : String) (db : DB) (now : Int)
    (mbs : List Mailbox) (tok : String) (db1 : DB) (k : Nat)
    (h1 : c.mailboxesWithState = some (mbs, tok))
    (h2 : SaveMailboxes db a mbs now none = (true, db1)) :
    fullMailboxSync c a db now sfNone k =
      (some { mailboxesCreated := mbs.length, mailboxesUpdated := 0, mailboxesDestroyed := 0,
              emailsCreated := 0, emailsUpdated := 0, emailsDestroyed := 0 },
       applyStmt db1 (.upsertSyncState ⟨a, tok, "", now⟩)) := by
  unfold fullMailboxSync
  rw [h1]
  dsimp only
  simp only [sfNone]
  rw [h2]
  dsimp only
  rw [saveSyncState_none]

theorem fullMailboxSync_err_syncFrame (c : Client) (a : String) (db : DB) (now : Int)
    (sf : Nat → Option Nat) (k : Nat)
    (h : (fullMailboxSync c a db now sf k).1 = none) :
    (fullMailboxSync c a db now sf k).2.syncStates = db.syncStates := by
  unfold fullMailboxSync at h ⊢
  cases hm : c.mailboxesWithState with
  | none => rfl
  | some p =>
      obtain ⟨mbs, tok⟩ := p
      rw [hm] at h
      dsimp only at h ⊢
      cases hS : SaveMailboxes db a mbs now (sf k) with
      | mk b db1 =>
          rw [hS] at h
          have hf1 : db1.syncStates = db.syncStates := by
            have hfr := saveMailboxes_syncFrame db a mbs now (sf k)
            rw [hS] at hfr
            exact hfr
          cases b with
          | false => exact hf1
          | true =>
              dsimp only at h ⊢
              cases hT : SaveSyncState db1 ⟨a, tok, "", now⟩ (sf (k + 1)) with
              | mk b2 db2 =>
                  cases b2 with
                  | false =>
                      have h2 : db2 = db1 := by
                        have hsf := saveSyncState_fail db1 ⟨a, tok, "", now⟩ (sf (k + 1))
                        rw [hT] at hsf
                        exact hsf rfl
                      dsimp only
                      rw [h2]
                      exact hf1
                  | true => rw [hT] at h; simp at h

theorem fullEmailSync_run (c : Client) (a mid : String) (lim : Int) (db : DB) (now : Int)
    (es : List Email) (tok : String) (k : Nat)
    (h1 : c.emailsWithState mid lim = some (es, tok)) :
    fullEmailSync c a mid lim db now sfNone k =
      (some { mailboxesCreated := 0, mailboxesUpdated := 0, mailboxesDestroyed := 0,
              emailsCreated := es.length, emailsUpdated := 0, emailsDestroyed := 0 },
       applyStmt (applyEmails a now db es)
         (.upsertSyncState
           { (match GetSyncState db a with
              | none => (⟨a, "", "", 0⟩ : SyncStateRow)
              | some st => st) with emailState := tok, lastSync := now })) := by
  unfold fullEmailSync
  rw [h1]
  dsimp only
  simp only [sfNone]
  rw [saveEmails_run]
  dsimp only
  have hg : GetSyncState (applyEmails a now db es) a = GetSyncState db a := by
    unfold GetSyncState findSyncStateRow
    rw [applyEmails_syncStates]
  rw [hg, saveSyncState_none]

theorem fullEmailSync_err_syncFrame (c : Client) (a mid : String) (lim : Int) (db : DB)
    (now : Int) (sf : Nat → Option Nat) (k : Nat)
    (h : (fullEmailSync c a mid lim db now sf k).1 = none) :
    (fullEmailSync c a mid lim db now sf k).2.syncStates = db.syncStates := by
  unfold fullEmailSync at h ⊢
  cases hm : c.emailsWithState mid lim with
  | none => rfl
  | some p =>
      obtain ⟨es, tok⟩ := p
      rw [hm] at h
      dsimp only at h ⊢
      cases hS : SaveEmails db a es now (sf k) with
      | mk b db1 =>
          rw [hS] at h
          have hf1 : db1.syncStates = db.syncStates := by
            have hfr := saveEmails_syncFrame db a es now (sf k)
            rw [hS] at hfr
            exact hfr
          cases b with
          | false => exact hf1
          | true =>
              dsimp only at h ⊢
              cases hT : SaveSyncState db1
                  { (match GetSyncState db1 a with
                     | none => (⟨a, "", "", 0⟩ : SyncStateRow)
                     | some st => st) with emailState := tok, lastSync := now }
                  (sf (k + 1)) with
              | mk b2 db2 =>
                  cases b2 with
                  | false =>
                      have h2 : db2 = db1 := by
                        have hsf := saveSyncState_fail db1
                          { (match GetSyncState db1 a with
                             | none => (⟨a, "", "", 0⟩ : SyncStateRow)
                             | some st => st) with emailState := tok, lastSync := now }
                          (sf (k + 1))
                        rw [hT] at hsf
                        exact hsf rfl
                      dsimp only
                      rw [h2]
                      exact hf1
                  | true => rw [hT] at h; simp at h

/-! Path lemmas for the two Syncer entry points. -/

theorem syncMailboxes_fullPath (c : Client) (db : DB) (now : Int) (sf : Nat → Option Nat)
    (h0 : GetSyncState db c.accountId = none ∨
      ∃ st, GetSyncState db c.accountId = some st ∧ st.mailboxState = "") :
    SyncMailboxes c db now sf = fullMailboxSync c c.accountId db now sf 0 := by
  unfold SyncMailboxes
  rcases h0 with h | ⟨st, hst, he⟩
  · rw [h]
  · rw [hst]
    dsimp only
    rw [if_pos he]

theorem syncMailboxes_deltaFail (c : Client) (db : DB) (now : Int) (sf : Nat → Option Nat)
    (st : SyncStateRow) (h1 : GetSyncState db c.accountId = some st)
    (h2 : ¬ st.mailboxState = "") (h3 : c.getMailboxChanges st.mailboxState = none) :
    SyncMailboxes c db now sf = fullMailboxSync c c.accountId db now sf 0 := by
  unfold SyncMailboxes
  rw [h1]
  dsimp only
  rw [if_neg h2, h3]

theorem syncEmails_fullPath (c : Client) (mid : String) (lim : Int) (db : DB) (now : Int)
    (sf : Nat → Option Nat)
    (h0 : GetSyncState db c.accountId = none ∨
      ∃ st, GetSyncState db c.accountId = some st ∧ st.emailState = "") :
    SyncEmails c mid lim db now sf = fullEmailSync c c.accountId mid lim db now sf 0 := by
  unfold SyncEmails
  rcases h0 with h | ⟨st, hst, he⟩
  · rw [h]
  · rw [hst]
    dsimp only
    rw [if_pos he]

theorem syncEmails_deltaFail (c : Client) (mid : String) (lim : Int) (db : DB) (now : Int)
    (sf : Nat → Option Nat) (st : SyncStateRow) (h1 : GetSyncState db c.accountId = some st)
    (h2 : ¬ st.emailState = "") (h3 : c.getEmailChanges st.emailState = none) :
    SyncEmails c mid lim db now sf = fullEmailSync c c.accountId mid lim db now sf 0 := by
  unfold SyncEmails
  rw [h1]
  dsimp only
  rw [if_neg h2, h3]

theorem syncEmails_incr_run (c : Client) (mid : String) (lim : Int) (db : DB) (now : Int)
    (st : SyncStateRow) (ch : Changes) (es : List Email)
    (h1 : GetSyncState db c.accountId = some st) (h2 : ¬ st.emailState = "")
    (h3 : c.getEmailChanges st.emailState = some ch)
    (h4 : ch.created ++ ch.updated ≠ [])
    (h5 : c.getEmailsByIDs (ch.created ++ ch.updated) = some es) :
    SyncEmails c mid lim db now sfNone =
      (some { mailboxesCreated := 0, mailboxesUpdated := 0, mailboxesDestroyed := 0,
              emailsCreated := ch.created.length, emailsUpdated := ch.updated.length,
              emailsDestroyed := ch.destroyed.length },
       applyStmt (applyEmails c.accountId now (applyDeleteEmails db ch.destroyed) es)
         (.upsertSyncState { st with emailState := ch.newState, lastSync := now })) := by
  unfold SyncEmails
  rw [h1]
  dsimp only
  rw [if_neg h2, h3]
  dsimp only
  rw [deleteEmailsLoop_none ch.destroyed db 0 0]
  dsimp only
  rw [if_pos (List.length_pos.mpr h4), h5]
  dsimp only
  simp only [sfNone]
  rw [saveEmails_run]
  dsimp only
  unfold finishEmailSync
  simp only [sfNone]
  rw [saveSyncState_none]
  dsimp only
  simp only [Nat.zero_add]

theorem syncMailboxes_incr_run (c : Client) (db : DB) (now : Int)
    (st : SyncStateRow) (ch : Changes) (mbs : List Mailbox)
    (h1 : GetSyncState db c.accountId = some st) (h2 : ¬ st.mailboxState = "")
    (h3 : c.getMailboxChanges st.mailboxState = some ch)
    (h4 : ch.created ++ ch.updated ≠ [])
    (h5 : c.getMailboxesByIDs (ch.created ++ ch.updated) = some mbs) :
    SyncMailboxes c db now sfNone =
      (some { mailboxesCreated := ch.created.length, mailboxesUpdated := ch.updated.length,
              mailboxesDestroyed := ch.destroyed.length,
              emailsCreated := 0, emailsUpdated := 0, emailsDestroyed := 0 },
       applyStmt (applyUpdateMailboxes (applyDeleteMailboxes db ch.destroyed) c.accountId now mbs)
         (.upsertSyncState { st with mailboxState := ch.newState, lastSync := now })) := by
  unfold SyncMailboxes
  rw [h1]
  dsimp only
  rw [if_neg h2, h3]
  dsimp only
  rw [deleteMailboxesLoop_none ch.destroyed db 0 0]
  dsimp only
  rw [if_pos (List.length_pos.mpr h4), h5]
  dsimp only
  rw [updateMailboxesLoop_none c.accountId now mbs _ _]
  dsimp only
  unfold finishMailboxSync
  simp only [sfNone]
  rw [saveSyncState_none]
  dsimp only
  simp only [Nat.zero_add]

theorem fullMailboxSync_destroyed_zero (c : Client) (a : String) (db : DB) (now : Int)
    (sf : Nat → Option Nat) (k : Nat) (r : SyncResult)
    (h : (fullMailboxSync c a db now sf k).1 = some r) :
    r.mailboxesDestroyed = 0 ∧ r.emailsDestroyed = 0 := by
  unfold fullMailboxSync at h
  cases hm : c.mailboxesWithState with
  | none => rw [hm] at h; simp at h
  | some p =>
      obtain ⟨mbs, tok⟩ := p
      rw [hm] at h
      dsimp only at h
      cases hS : SaveMailboxes db a mbs now (sf k) with
      | mk b db1 =>
          rw [hS] at h
          cases b with
          | false => simp at h
          | true =>
              dsimp only at h
              cases hT : SaveSyncState db1 ⟨a, tok, "", now⟩ (sf (k + 1)) with
              | mk b2 db2 =>
                  rw [hT] at h
                  cases b2 with
                  | false => simp at h
                  | true =>
                      dsimp only at h
                      injection h with h'
                      rw [← h']
                      exact ⟨rfl, rfl⟩

theorem fullEmailSync_destroyed_zero (c : Client) (a mid : String) (lim : Int) (db : DB)
    (now : Int) (sf : Nat → Option Nat) (k : Nat) (r : SyncResult)
    (h : (fullEmailSync c a mid lim db now sf k).1 = some r) :
    r.mailboxesDestroyed = 0 ∧ r.emailsDestroyed = 0 := by
  unfold fullEmailSync at h
  cases hm : c.emailsWithState mid lim with
  | none => rw [hm] at h; simp at h
  | some p =>
      obtain ⟨es, tok⟩ := p
      rw [hm] at h
      dsimp only at h
      cases hS : SaveEmails db a es now (sf k) with
      | mk b db1 =>
          rw [hS] at h
          cases b with
          | false => simp at h
          | true =>
              dsimp only at h
              cases hT : SaveSyncState db1
                  { (match GetSyncState db1 a with
                     | none => (⟨a, "", "", 0⟩ : SyncStateRow)
                     | some st => st) with emailState := tok, lastSync := now }
                  (sf (k + 1)) with
              | mk b2 db2 =>
                  rw [hT] at h
                  cases b2 with
                  | false => simp at h
                  | true =>
                      dsimp only at h
                      injection h with h'
                      rw [← h']
                      exact ⟨rfl, rfl⟩

/-- On any error outcome, SyncMailboxes leaves the sync_state table
untouched. -/
theorem syncMailboxes_err_syncStates (c : Client) (db : DB) (now : Int) (sf : Nat → Option Nat)
    (h : (SyncMailboxes c db now sf).1 = none) :
    (SyncMailboxes c db now sf).2.syncStates = db.syncStates := by
  unfold SyncMailboxes at h ⊢
  cases hg : GetSyncState db c.accountId with
  | none =>
      rw [hg] at h
      exact fullMailboxSync_err_syncFrame c c.accountId db now sf 0 h
  | some st =>
      rw [hg] at h
      dsimp only at h ⊢
      by_cases he : st.mailboxState = ""
      · rw [if_pos he] at h ⊢
        exact fullMailboxSync_err_syncFrame c c.accountId db now sf 0 h
      · rw [if_neg he] at h ⊢
        cases hc : c.getMailboxChanges st.mailboxState with
        | none =>
            rw [hc] at h
            exact fullMailboxSync_err_syncFrame c c.accountId db now sf 0 h
        | some ch =>
            rw [hc] at h
            dsimp only at h ⊢
            cases hd : deleteMailboxesLoop db ch.destroyed sf 0 0 with
            | mk b1 rest =>
                obtain ⟨db1, k1, cnt⟩ := rest
                rw [hd] at h
                have hfd : db1.syncStates = db.syncStates := by
                  have hfr := deleteMailboxesLoop_syncFrame ch.destroyed db sf 0 0
                  rw [hd] at hfr
                  exact hfr
                cases b1 with
                | false => exact hfd
                | true =>
                    dsimp only at h ⊢
                    by_cases hl : (ch.created ++ ch.updated).length > 0
                    · rw [if_pos hl] at h ⊢
                      cases hf : c.getMailboxesByIDs (ch.created ++ ch.updated) with
                      | none =>
                          rw [hf] at h
                          exact hfd
                      | some mbs =>
                          rw [hf] at h
                          dsimp only at h ⊢
                          cases hu : updateMailboxesLoop db1 c.accountId mbs now sf k1 with
                          | mk b2 rest2 =>
                              obtain ⟨db2, k2⟩ := rest2
                              rw [hu] at h
                              have hfu : db2.syncStates = db1.syncStates := by
                                have hfr := updateMailboxesLoop_syncFrame c.accountId now mbs db1 sf k1
                                rw [hu] at hfr
                                exact hfr
                              cases b2 with
                              | false => exact hfu.trans hfd
                              | true =>
                                  dsimp only at h ⊢
                                  unfold finishMailboxSync at h ⊢
                                  cases hT : SaveSyncState db2
                                      { st with mailboxState := ch.newState, lastSync := now }
                                      (sf k2) with
                                  | mk b3 db3 =>
                                      rw [hT] at h
                                      cases b3 with
                                      | false =>
                                          have h3 : db3 = db2 := by
                                            have hsf := saveSyncState_fail db2
                                              { st with mailboxState := ch.newState, lastSync := now }
                                              (sf k2)
                                            rw [hT] at hsf
                                            exact hsf rfl
                                          dsimp only
                                          rw [h3]
                                          exact hfu.trans hfd
                                      | true => simp at h
                    · rw [if_neg hl] at h ⊢
                      unfold finishMailboxSync at h ⊢
                      cases hT : SaveSyncState db1
                          { st with mailboxState := ch.newState, lastSync := now }
                          (sf k1) with
                      | mk b3 db3 =>
                          rw [hT] at h
                          cases b3 with
                          | false =>
                              have h3 : db3 = db1 := by
                                have hsf := saveSyncState_fail db1
                                  { st with mailboxState := ch.newState, lastSync := now }
                                  (sf k1)
                                rw [hT] at hsf
                                exact hsf rfl
                              dsimp only
                              rw [h3]
                              exact hfd
                          | true => simp at h

/-- On any error outcome, SyncEmails leaves the sync_state table
untouched. -/
theorem syncEmails_err_syncStates (c : Client) (mid : String) (lim : Int) (db : DB) (now : Int)
    (sf : Nat → Option Nat) (h : (SyncEmails c mid lim db now sf).1 = none) :
    (SyncEmails c mid lim db now sf).2.syncStates = db.syncStates := by
  unfold SyncEmails at h ⊢
  cases hg : GetSyncState db c.accountId with
  | none =>
      rw [hg] at h
      exact fullEmailSync_err_syncFrame c c.accountId mid lim db now sf 0 h
  | some st =>
      rw [hg] at h
      dsimp only at h ⊢
      by_cases he : st.emailState = ""
      · rw [if_pos he] at h ⊢
        exact fullEmailSync_err_syncFrame c c.accountId mid lim db now sf 0 h
      · rw [if_neg he] at h ⊢
        cases hc : c.getEmailChanges st.emailState with
        | none =>
            rw [hc] at h
            exact fullEmailSync_err_syncFrame c c.accountId mid lim db now sf 0 h
        | some ch =>
            rw [hc] at h
            dsimp only at h ⊢
            cases hd : deleteEmailsLoop db ch.destroyed sf 0 0 with
            | mk b1 rest =>
                obtain ⟨db1, k1, cnt⟩ := rest
                rw [hd] at h
                have hfd : db1.syncStates = db.syncStates := by
                  have hfr := deleteEmailsLoop_syncFrame ch.destroyed db sf 0 0
                  rw [hd] at hfr
                  exact hfr
                cases b1 with
                | false => exact hfd
                | true =>
                    dsimp only at h ⊢
                    by_cases hl : (ch.created ++ ch.updated).length > 0
                    · rw [if_pos hl] at h ⊢
                      cases hf : c.getEmailsByIDs (ch.created ++ ch.updated) with
                      | none =>
                          rw [hf] at h
                          exact hfd
                      | some es =>
                          rw [hf] at h
                          dsimp only at h ⊢
                          cases hs : SaveEmails db1 c.accountId es now (sf k1) with
                          | mk b2 db2 =>
                              rw [hs] at h
                              have hfu : db2.syncStates = db1.syncStates := by
                                have hfr := saveEmails_syncFrame db1 c.accountId es now (sf k1)
                                rw [hs] at hfr
                                exact hfr
                              cases b2 with
                              | false => exact hfu.trans hfd
                              | true =>
                                  dsimp only at h ⊢
                                  unfold finishEmailSync at h ⊢
                                  cases hT : SaveSyncState db2
                                      { st with emailState := ch.newState, lastSync := now }
                                      (sf (k1 + 1)) with
                                  | mk b3 db3 =>
                                      rw [hT] at h
                                      cases b3 with
                                      | false =>
                                          have h3 : db3 = db2 := by
                                            have hsf := saveSyncState_fail db2
                                              { st with emailState := ch.newState, lastSync := now }
                                              (sf (k1 + 1))
                                            rw [hT] at hsf
                                            exact hsf rfl
                                          dsimp only
                                          rw [h3]
                                          exact hfu.trans hfd
                                      | true => simp at h
                    · rw [if_neg hl] at h ⊢
                      unfold finishEmailSync at h ⊢
                      cases hT : SaveSyncState db1
                          { st with emailState := ch.newState, lastSync := now }
                          (sf k1) with
                      | mk b3 db3 =>
                          rw [hT] at h
                          cases b3 with
                          | false =>
                              have h3 : db3 = db1 := by
                                have hsf := saveSyncState_fail db1
                                  { st with emailState := ch.newState, lastSync := now }
                                  (sf k1)
                                rw [hT] at hsf
                                exact hsf rfl
                              dsimp only
                              rw [h3]
                              exact hfd
                          | true => simp at h

theorem syncMailboxes_incr_empty_run (c : Client) (db : DB) (now : Int)
    (st : SyncStateRow) (ch : Changes)
    (h1 : GetSyncState db c.accountId = some st) (h2 : ¬ st.mailboxState = "")
    (h3 : c.getMailboxChanges st.mailboxState = some ch)
    (h4 : ch.created ++ ch.updated = []) :
    SyncMailboxes c db now sfNone =
      (some { mailboxesCreated := 0, mailboxesUpdated := 0,
              mailboxesDestroyed := ch.destroyed.length,
              emailsCreated := 0, emailsUpdated := 0, emailsDestroyed := 0 },
       applyStmt (applyDeleteMailboxes db ch.destroyed)
         (.upsertSyncState { st with mailboxState := ch.newState, lastSync := now })) := by
  unfold SyncMailboxes
  rw [h1]
  dsimp only
  rw [if_neg h2, h3]
  dsimp only
  rw [deleteMailboxesLoop_none ch.destroyed db 0 0]
  dsimp only
  rw [if_neg (by simp [h4])]
  unfold finishMailboxSync
  simp only [sfNone]
  rw [saveSyncState_none]
  dsimp only
  simp only [Nat.zero_add]

theorem syncEmails_incr_empty_run (c : Client) (mid : String) (lim : Int) (db : DB) (now : Int)
    (st : SyncStateRow) (ch : Changes)
    (h1 : GetSyncState db c.accountId = some st) (h2 : ¬ st.emailState = "")
    (h3 : c.getEmailChanges st.emailState = some ch)
    (h4 : ch.created ++ ch.updated = []) :
    SyncEmails c mid lim db now sfNone =
      (some { mailboxesCreated := 0, mailboxesUpdated := 0, mailboxesDestroyed := 0,
              emailsCreated := 0, emailsUpdated := 0,
              emailsDestroyed := ch.destroyed.length },
       applyStmt (applyDeleteEmails db ch.destroyed)
         (.upsertSyncState { st with emailState := ch.newState, lastSync := now })) := by
  unfold SyncEmails
  rw [h1]
  dsimp only
  rw [if_neg h2, h3]
  dsimp only
  rw [deleteEmailsLoop_none ch.destroyed db 0 0]
  dsimp only
  rw [if_neg (by simp [h4])]
  unfold finishEmailSync
  simp only [sfNone]
  rw [saveSyncState_none]
  dsimp only
  simp only [Nat.zero_add]

theorem fullMailboxSync_ok (c : Client) (a : String) (db : DB) (now : Int) (k : Nat)
    (mbs : List Mailbox) (tok : String)
    (hm : c.mailboxesWithState = some (mbs, tok))
    (hok : (SaveMailboxes db a mbs now none).1 = true) :
    (fullMailboxSync c a db now sfNone k).1 ≠ none := by
  cases hS : SaveMailboxes db a mbs now none with
  | mk b db1 =>
      rw [hS] at hok
      subst hok
      rw [fullMailboxSync_run c a db now mbs tok db1 k hm hS]
      simp

theorem fullEmailSync_ok (c : Client) (a mid : String) (lim : Int) (db : DB) (now : Int)
    (k : Nat) (es : List Email) (tok : String)
    (hm : c.emailsWithState mid lim = some (es, tok)) :
    (fullEmailSync c a mid lim db now sfNone k).1 ≠ none := by
  rw [fullEmailSync_run c a mid lim db now es tok k hm]
  simp

/-- If the client's fetch calls answer and the store suffers no failure,
SyncMailboxes returns no error — whatever the delta call does. -/
theorem syncMailboxes_ok (c : Client) (db : DB) (now : Int)
    (hA : ∀ mbs tok, c.mailboxesWithState = some (mbs, tok) →
      (SaveMailboxes db c.accountId mbs now none).1 = true)
    (hB : c.mailboxesWithState ≠ none)
    (hC : ∀ ids, c.getMailboxesByIDs ids ≠ none) :
    (SyncMailboxes c db now sfNone).1 ≠ none := by
  have hfull : (fullMailboxSync c c.accountId db now sfNone 0).1 ≠ none := by
    cases hm : c.mailboxesWithState with
    | none => exact absurd hm hB
    | some p =>
        obtain ⟨mbs, tok⟩ := p
        exact fullMailboxSync_ok c c.accountId db now 0 mbs tok hm (hA mbs tok hm)
  cases hg : GetSyncState db c.accountId with
  | none => rw [syncMailboxes_fullPath c db now sfNone (Or.inl hg)]; exact hfull
  | some st =>
      by_cases he : st.mailboxState = ""
      · rw [syncMailboxes_fullPath c db now sfNone (Or.inr ⟨st, hg, he⟩)]; exact hfull
      · cases hc : c.getMailboxChanges st.mailboxState with
        | none => rw [syncMailboxes_deltaFail c db now sfNone st hg he hc]; exact hfull
        | some ch =>
            by_cases hl : ch.created ++ ch.updated = []
            · rw [syncMailboxes_incr_empty_run c db now st ch hg he hc hl]; simp
            · cases hf : c.getMailboxesByIDs (ch.created ++ ch.updated) with
              | none => exact absurd hf (hC _)
              | some mbs =>
                  rw [syncMailboxes_incr_run c db now st ch mbs hg he hc hl hf]; simp

/-- If the client's fetch calls answer, SyncEmails returns no error when no
store failure is injected (SaveEmails cannot hit a constraint). -/
theorem syncEmails_ok (c : Client) (mid : String) (lim : Int) (db : DB) (now : Int)
    (hB : c.emailsWithState mid lim ≠ none)
    (hC : ∀ ids, c.getEmailsByIDs ids ≠ none) :
    (SyncEmails c mid lim db now sfNone).1 ≠ none := by
  have hfull : (fullEmailSync c c.accountId mid lim db now sfNone 0).1 ≠ none := by
    cases hm : c.emailsWithState mid lim with
    | none => exact absurd hm hB
    | some p =>
        obtain ⟨es, tok⟩ := p
        exact fullEmailSync_ok c c.accountId mid lim db now 0 es tok hm
  cases hg : GetSyncState db c.accountId with
  | none => rw [syncEmails_fullPath c mid lim db now sfNone (Or.inl hg)]; exact hfull
  | some st =>
      by_cases he : st.emailState = ""
      · rw [syncEmails_fullPath c mid lim db now sfNone (Or.inr ⟨st, hg, he⟩)]; exact hfull
      · cases hc : c.getEmailChanges st.emailState with
        | none => rw [syncEmails_deltaFail c mid lim db now sfNone st hg he hc]; exact hfull
        | some ch =>
            by_cases hl : ch.created ++ ch.updated = []
            · rw [syncEmails_incr_empty_run c mid lim db now st ch hg he hc hl]; simp
            · cases hf : c.getEmailsByIDs (ch.created ++ ch.updated) with
              | none => exact absurd hf (hC _)
              | some es =>
                  rw [syncEmails_incr_run c mid lim db now st ch es hg he hc hl hf]; simp

theorem applyStmt_upsertSyncState_emails (db : DB) (st : SyncStateRow) :
    (applyStmt db (.upsertSyncState st)).emails = db.emails := rfl

theorem applyStmt_upsertSyncState_mailboxes (db : DB) (st : SyncStateRow) :
    (applyStmt db (.upsertSyncState st)).mailboxes = db.mailboxes := rfl

theorem getSyncState_after_upsert (db : DB) (st : SyncStateRow) (a : String)
    (ha : st.accountId = a) :
    GetSyncState (applyStmt db (.upsertSyncState st)) a = some st := by
  subst ha
  unfold GetSyncState findSyncStateRow
  have h := find?_upsert_key (fun r : SyncStateRow => r.accountId) db.syncStates st st.accountId
  simp only [if_pos rfl] at h
  exact h

theorem getSyncState_accountId (db : DB) (a : String) (st : SyncStateRow)
    (h : GetSyncState db a = some st) : st.accountId = a := by
  unfold GetSyncState findSyncStateRow at h
  have h2 := List.find?_some h
  simpa using h2

/-- Claim C2: for every stored token, a failing delta call makes the
Syncer fall back to full sync within the same cycle (the cycle's outcome
is that of the full sync, not an error wrapping the delta failure), and
any result returned reports zero destroyed items — for both mailboxes and
emails. -/
theorem claim_C2 :
    (∀ (c : Client) (db : DB) (now : Int) (sf : Nat → Option Nat) (st : SyncStateRow),
      GetSyncState db c.accountId = some st → ¬ st.mailboxState = "" →
      c.getMailboxChanges st.mailboxState = none →
      SyncMailboxes c db now sf = fullMailboxSync c c.accountId db now sf 0 ∧
      ∀ r, (SyncMailboxes c db now sf).1 = some r → r.mailboxesDestroyed = 0) ∧
    (∀ (c : Client) (mid : String) (lim : Int) (db : DB) (now : Int) (sf : Nat → Option Nat)
      (st : SyncStateRow),
      GetSyncState db c.accountId = some st → ¬ st.emailState = "" →
      c.getEmailChanges st.emailState = none →
      SyncEmails c mid lim db now sf = fullEmailSync c c.accountId mid lim db now sf 0 ∧
      ∀ r, (SyncEmails c mid lim db now sf).1 = some r → r.emailsDestroyed = 0) := by
  constructor
  · intro c db now sf st h1 h2 h3
    have heq := syncMailboxes_deltaFail c db now sf st h1 h2 h3
    refine ⟨heq, ?_⟩
    intro r hr
    rw [heq] at hr
    exact (fullMailboxSync_destroyed_zero c c.accountId db now sf 0 r hr).1
  · intro c mid lim db now sf st h1 h2 h3
    have heq := syncEmails_deltaFail c mid lim db now sf st h1 h2 h3
    refine ⟨heq, ?_⟩
    intro r hr
    rw [heq] at hr
    exact (fullEmailSync_destroyed_zero c c.accountId mid lim db now sf 0 r hr).2

/-- Witness for C2 at a concrete store and client: account "acct" holds
tokens "MS1" / "ES1" and both delta calls fail. -/
theorem claim_C2_witness :
    (GetSyncState wdb (clientBase "acct").accountId = some ⟨"acct", "MS1", "ES1", 3⟩ ∧
      ¬ ("MS1" : String) = "" ∧ (clientBase "acct").getMailboxChanges "MS1" = none) ∧
    (SyncMailboxes (clientBase "acct") wdb 100 sfNone =
        fullMailboxSync (clientBase "acct") (clientBase "acct").accountId wdb 100 sfNone 0 ∧
      ∀ r, (SyncMailboxes (clientBase "acct") wdb 100 sfNone).1 = some r →
        r.mailboxesDestroyed = 0) ∧
    (SyncEmails (clientBase "acct") "inbox-1" 10 wdb 100 sfNone =
        fullEmailSync (clientBase "acct") (clientBase "acct").accountId "inbox-1" 10 wdb 100 sfNone 0 ∧
      ∀ r, (SyncEmails (clientBase "acct") "inbox-1" 10 wdb 100 sfNone).1 = some r →
        r.emailsDestroyed = 0) :=
  ⟨⟨by decide, by decide, by decide⟩,
   claim_C2.1 (clientBase "acct") wdb 100 sfNone ⟨"acct", "MS1", "ES1", 3⟩
     (by decide) (by decide) (by decide),
   claim_C2.2 (clientBase "acct") "inbox-1" 10 wdb 100 sfNone ⟨"acct", "MS1", "ES1", 3⟩
     (by decide) (by decide) (by decide)⟩

/-- Claim C5: within one incremental cycle destructions are applied before
the re-fetch-and-upsert of created/updated records, so an id in both the
destroyed and the created (or updated) set ends up present in the Store
with its re-fetched state — for both mailboxes and emails. -/
theorem claim_C5 :
    (∀ (c : Client) (db : DB) (now : Int) (st : SyncStateRow) (ch : Changes)
      (mbs : List Mailbox) (X : String) (mbx : Mailbox),
      GetSyncState db c.accountId = some st → ¬ st.mailboxState = "" →
      c.getMailboxChanges st.mailboxState = some ch →
      X ∈ ch.destroyed → X ∈ ch.created ++ ch.updated →
      c.getMailboxesByIDs (ch.created ++ ch.updated) = some mbs →
      lastWithIdMb mbs X = some mbx →
      (SyncMailboxes c db now sfNone).1.isSome = true ∧
      findMailboxRow (SyncMailboxes c db now sfNone).2.mailboxes X =
        some (mailboxToRow c.accountId mbx now)) ∧
    (∀ (c : Client) (mid : String) (lim : Int) (db : DB) (now : Int) (st : SyncStateRow)
      (ch : Changes) (es : List Email) (X : String) (ex : Email),
      GetSyncState db c.accountId = some st → ¬ st.emailState = "" →
      c.getEmailChanges st.emailState = some ch →
      X ∈ ch.destroyed → X ∈ ch.created ++ ch.updated →
      c.getEmailsByIDs (ch.created ++ ch.updated) = some es →
      lastWithId es X = some ex →
      (SyncEmails c mid lim db now sfNone).1.isSome = true ∧
      findEmailRow (SyncEmails c mid lim db now sfNone).2.emails X =
        some (emailToRow c.accountId ex now)) := by
  constructor
  · intro c db now st ch mbs X mbx h1 h2 h3 _ hX h5 hlast
    have h4 : ch.created ++ ch.updated ≠ [] := List.ne_nil_of_mem hX
    rw [syncMailboxes_incr_run c db now st ch mbs h1 h2 h3 h4 h5]
    refine ⟨rfl, ?_⟩
    dsimp only
    rw [applyStmt_upsertSyncState_mailboxes,
      applyUpdateMailboxes_lookup c.accountId now mbs X _, hlast]
  · intro c mid lim db now st ch es X ex h1 h2 h3 _ hX h5 hlast
    have h4 : ch.created ++ ch.updated ≠ [] := List.ne_nil_of_mem hX
    rw [syncEmails_incr_run c mid lim db now st ch es h1 h2 h3 h4 h5]
    refine ⟨rfl, ?_⟩
    dsimp only
    rw [applyStmt_upsertSyncState_emails,
      applyEmails_lookup c.accountId now es X _, hlast]

/-- Witness for C5: id "mb-9" (resp. "e9") is both destroyed and created
in one delta against the store holding tokens "MS1"/"ES1". -/
theorem claim_C5_witness :
    (GetSyncState wdb c5client.accountId = some ⟨"acct", "MS1", "ES1", 3⟩ ∧
      ("mb-9" : String) ∈ (["mb-9"] : List String) ∧
      lastWithIdMb [sampleMailbox "mb-9" "Nine" 1] "mb-9" = some (sampleMailbox "mb-9" "Nine" 1)) ∧
    ((SyncMailboxes c5client wdb 50 sfNone).1.isSome = true ∧
      findMailboxRow (SyncMailboxes c5client wdb 50 sfNone).2.mailboxes "mb-9" =
        some (mailboxToRow c5client.accountId (sampleMailbox "mb-9" "Nine" 1) 50)) ∧
    ((SyncEmails c5client "inbox-1" 10 wdb 50 sfNone).1.isSome = true ∧
      findEmailRow (SyncEmails c5client "inbox-1" 10 wdb 50 sfNone).2.emails "e9" =
        some (emailToRow c5client.accountId (sampleEmail "e9" ["archive-1"] true false) 50)) :=
  ⟨⟨by decide, by decide, by decide⟩,
   claim_C5.1 c5client wdb 50 ⟨"acct", "MS1", "ES1", 3⟩ ⟨["mb-9"], [], ["mb-9"], "MS2"⟩
     [sampleMailbox "mb-9" "Nine" 1] "mb-9" (sampleMailbox "mb-9" "Nine" 1)
     (by decide) (by decide) (by decide) (by decide) (by decide) (by decide) (by decide),
   claim_C5.2 c5client "inbox-1" 10 wdb 50 ⟨"acct", "MS1", "ES1", 3⟩ ⟨["e9"], [], ["e9"], "ES2"⟩
     [sampleEmail "e9" ["archive-1"] true false] "e9" (sampleEmail "e9" ["archive-1"] true false)
     (by decide) (by decide) (by decide) (by decide) (by decide) (by decide) (by decide)⟩

/-- Counterexample for C3 as stated: the delta call itself succeeds, a
remote-client record fetch (GetMailboxesByIDs) fails, and SyncMailboxes
surfaces that remote failure as a Syncer-level error while no Store write
failed. -/
theorem claim_C3_counterexample :
    c3client.getMailboxChanges "MS1" = some ⟨["m9"], [], [], "MS2"⟩ ∧
    c3client.getMailboxesByIDs ["m9"] = none ∧
    (SyncMailboxes c3client wdb 100 sfNone).1 = none ∧
    (SyncMailboxes c3client wdb 100 sfNone).2 = wdb := by
  refine ⟨by decide, by decide, by decide, by decide⟩

/-- Claim C3 (amended): a non-nil Syncer-level error arises only from a
failing Store write or a failing remote record fetch (full fetch or
fetch-by-ids) — never from the delta call alone — and whenever an error is
returned, the sync_state row (tokens and timestamp) is unmodified. -/
theorem claim_C3_amended :
    (∀ (c : Client) (db : DB) (now : Int) (sf : Nat → Option Nat),
      (SyncMailboxes c db now sf).1 = none →
      (SyncMailboxes c db now sf).2.syncStates = db.syncStates) ∧
    (∀ (c : Client) (mid : String) (lim : Int) (db : DB) (now : Int) (sf : Nat → Option Nat),
      (SyncEmails c mid lim db now sf).1 = none →
      (SyncEmails c mid lim db now sf).2.syncStates = db.syncStates) ∧
    (∀ (c : Client) (db : DB) (now : Int),
      (∀ mbs tok, c.mailboxesWithState = some (mbs, tok) →
        (SaveMailboxes db c.accountId mbs now none).1 = true) →
      c.mailboxesWithState ≠ none →
      (∀ ids, c.getMailboxesByIDs ids ≠ none) →
      (SyncMailboxes c db now sfNone).1 ≠ none) ∧
    (∀ (c : Client) (mid : String) (lim : Int) (db : DB) (now : Int),
      c.emailsWithState mid lim ≠ none →
      (∀ ids, c.getEmailsByIDs ids ≠ none) →
      (SyncEmails c mid lim db now sfNone).1 ≠ none) :=
  ⟨syncMailboxes_err_syncStates, syncEmails_err_syncStates, syncMailboxes_ok, syncEmails_ok⟩

/-- Witness for C3 (amended): the error case at the failing-fetch client
leaves the sync_state row unchanged, and the all-answering client yields
no error. -/
theorem claim_C3_witness :
    ((SyncMailboxes c3client wdb 100 sfNone).1 = none ∧
      (SyncMailboxes c3client wdb 100 sfNone).2.syncStates = wdb.syncStates) ∧
    ((SyncEmails c3client "inbox-1" 10 wdb 100 sfNone).1 = none ∧
      (SyncEmails c3client "inbox-1" 10 wdb 100 sfNone).2.syncStates = wdb.syncStates) ∧
    (SyncMailboxes cGood wdb 100 sfNone).1 ≠ none ∧
    (SyncEmails cGood "inbox-1" 10 wdb 100 sfNone).1 ≠ none :=
  ⟨⟨by decide, claim_C3_amended.1 c3client wdb 100 sfNone (by decide)⟩,
   ⟨by decide, claim_C3_amended.2.1 c3client "inbox-1" 10 wdb 100 sfNone (by decide)⟩,
   claim_C3_amended.2.2.1 cGood wdb 100
     (by
       intro mbs tok h
       simp only [cGood, clientBase] at h
       obtain ⟨h1, h2⟩ := Prod.mk.injEq .. ▸ Option.some.inj h
       rw [← h1]
       decide)
     (by simp [cGood, clientBase])
     (by intro ids; simp [cGood, clientBase]),
   claim_C3_amended.2.2.2 cGood "inbox-1" 10 wdb 100
     (by simp [cGood, clientBase])
     (by intro ids; simp [cGood, clientBase])⟩

theorem filter_account_replace (db : DB) (a : String) (mbs : List Mailbox) (now : Int) :
    ((db.mailboxes.filter fun x => !(x.accountId == a)) ++
        mbs.map (fun mb => mailboxToRow a mb now)).filter (fun r => r.accountId == a) =
      mbs.map (fun mb => mailboxToRow a mb now) := by
  rw [List.filter_append]
  have h1 : (db.mailboxes.filter fun x => !(x.accountId == a)).filter
      (fun r => r.accountId == a) = [] := by
    rw [List.filter_filter]
    apply List.eq_nil_iff_forall_not_mem.mpr
    intro x hx
    have := (List.mem_filter.mp hx).2
    simp at this
  have h2 : (mbs.map fun mb => mailboxToRow a mb now).filter (fun r => r.accountId == a) =
      mbs.map (fun mb => mailboxToRow a mb now) := by
    apply List.filter_eq_self.mpr
    intro r hr
    obtain ⟨mb, _, hmb⟩ := List.mem_map.mp hr
    rw [← hmb]
    simp [mailboxToRow]
  rw [h1, h2, List.nil_append]

/-- Claim C1 (amended): with no SyncState or an empty stored token, both
entry points run a full sync, persist the new token, and report all
fetched items as created with updated and destroyed zero; the mailbox full
sync replaces the account's entire mailbox set; the email full sync
UPSERTS the fetched emails — prior email rows outside the fetched set are
retained, not replaced. -/
theorem claim_C1 :
    (∀ (c : Client) (db : DB) (now : Int) (mbs : List Mailbox) (tok : String) (db1 : DB),
      (GetSyncState db c.accountId = none ∨
        ∃ st, GetSyncState db c.accountId = some st ∧ st.mailboxState = "") →
      c.mailboxesWithState = some (mbs, tok) →
      SaveMailboxes db c.accountId mbs now none = (true, db1) →
      (SyncMailboxes c db now sfNone).1 =
        some { mailboxesCreated := mbs.length, mailboxesUpdated := 0, mailboxesDestroyed := 0,
               emailsCreated := 0, emailsUpdated := 0, emailsDestroyed := 0 } ∧
      (SyncMailboxes c db now sfNone).2.mailboxes.filter (fun r => r.accountId == c.accountId) =
        mbs.map (fun mb => mailboxToRow c.accountId mb now) ∧
      (GetSyncState (SyncMailboxes c db now sfNone).2 c.accountId).map
        (fun s => s.mailboxState) = some tok) ∧
    (∀ (c : Client) (mid : String) (lim : Int) (db : DB) (now : Int) (es : List Email)
      (tok : String),
      (GetSyncState db c.accountId = none ∨
        ∃ st, GetSyncState db c.accountId = some st ∧ st.emailState = "") →
      c.emailsWithState mid lim = some (es, tok) →
      (SyncEmails c mid lim db now sfNone).1 =
        some { mailboxesCreated := 0, mailboxesUpdated := 0, mailboxesDestroyed := 0,
               emailsCreated := es.length, emailsUpdated := 0, emailsDestroyed := 0 } ∧
      (∀ i e, lastWithId es i = some e →
        findEmailRow (SyncEmails c mid lim db now sfNone).2.emails i =
          some (emailToRow c.accountId e now)) ∧
      (∀ r ∈ db.emails, (∀ e ∈ es, ¬ e.id = r.id) →
        r ∈ (SyncEmails c mid lim db now sfNone).2.emails) ∧
      (GetSyncState (SyncEmails c mid lim db now sfNone).2 c.accountId).map
        (fun s => s.emailState) = some tok) := by
  constructor
  · intro c db now mbs tok db1 h0 h1 h2
    rw [syncMailboxes_fullPath c db now sfNone h0,
      fullMailboxSync_run c c.accountId db now mbs tok db1 0 h1 h2]
    refine ⟨rfl, ?_, ?_⟩
    · dsimp only
      rw [applyStmt_upsertSyncState_mailboxes, saveMailboxes_ok db c.accountId mbs now db1 h2]
      exact filter_account_replace db c.accountId mbs now
    · dsimp only
      rw [getSyncState_after_upsert db1 ⟨c.accountId, tok, "", now⟩ c.accountId rfl]
      rfl
  · intro c mid lim db now es tok h0 h1
    rw [syncEmails_fullPath c mid lim db now sfNone h0,
      fullEmailSync_run c c.accountId mid lim db now es tok 0 h1]
    refine ⟨rfl, ?_, ?_, ?_⟩
    · intro i e hl
      dsimp only
      rw [applyStmt_upsertSyncState_emails, applyEmails_lookup c.accountId now es i db, hl]
    · intro r hr hne
      dsimp only
      rw [applyStmt_upsertSyncState_emails]
      exact applyEmails_retains c.accountId now es db r hr hne
    · cases hg : GetSyncState db c.accountId with
      | none =>
          dsimp only
          rw [getSyncState_after_upsert _ _ c.accountId rfl]
          rfl
      | some st =>
          dsimp only
          rw [getSyncState_after_upsert (applyEmails c.accountId now db es)
            { st with emailState := tok, lastSync := now } c.accountId
            (getSyncState_accountId db c.accountId st hg)]
          rfl

/-- Counterexample for C1 as stated: a full email sync does not replace
the Store's email set — the pre-existing email "old1", absent from the
fetched set, is still present afterwards. -/
theorem claim_C1_counterexample :
    GetSyncState c1db c1client.accountId = none ∧
    c1client.emailsWithState "inbox-1" 100 = some ([sampleEmail "e9" ["inbox-1"] true false], "T2") ∧
    (SyncEmails c1client "inbox-1" 100 c1db 77 sfNone).1 =
      some { mailboxesCreated := 0, mailboxesUpdated := 0, mailboxesDestroyed := 0,
             emailsCreated := 1, emailsUpdated := 0, emailsDestroyed := 0 } ∧
    (∀ e ∈ [sampleEmail "e9" ["inbox-1"] true false], ¬ e.id = "old1") ∧
    (findEmailRow (SyncEmails c1client "inbox-1" 100 c1db 77 sfNone).2.emails "old1").isSome
      = true := by
  refine ⟨by decide, by decide, by decide, by decide, by decide⟩

/-- Witness for C1 (amended), at a concrete fresh-token store for each
entity type. -/
theorem claim_C1_witness :
    (SaveMailboxes c4db "acct" [sampleMailbox "inbox-1" "Inbox" 0] 77 none = (true, c1wdb1) ∧
      (SyncMailboxes c4client c4db 77 sfNone).1 =
        some { mailboxesCreated := 1, mailboxesUpdated := 0, mailboxesDestroyed := 0,
               emailsCreated := 0, emailsUpdated := 0, emailsDestroyed := 0 } ∧
      (GetSyncState (SyncMailboxes c4client c4db 77 sfNone).2 "acct").map
        (fun s => s.mailboxState) = some "M2") ∧
    (GetSyncState c1db "acct" = none ∧
      (SyncEmails c1client "inbox-1" 100 c1db 77 sfNone).1 =
        some { mailboxesCreated := 0, mailboxesUpdated := 0, mailboxesDestroyed := 0,
               emailsCreated := 1, emailsUpdated := 0, emailsDestroyed := 0 } ∧
      findEmailRow (SyncEmails c1client "inbox-1" 100 c1db 77 sfNone).2.emails "e9" =
        some (emailToRow "acct" (sampleEmail "e9" ["inbox-1"] true false) 77) ∧
      emailToRow "acct" (sampleEmail "old1" ["inbox-1"] true false) 1 ∈
        (SyncEmails c1client "inbox-1" 100 c1db 77 sfNone).2.emails ∧
      (GetSyncState (SyncEmails c1client "inbox-1" 100 c1db 77 sfNone).2 "acct").map
        (fun s => s.emailState) = some "T2") :=
  ⟨⟨by decide,
    (claim_C1.1 c4client c4db 77 [sampleMailbox "inbox-1" "Inbox" 0] "M2" c1wdb1
      (Or.inr ⟨⟨"acct", "", "T1", 3⟩, by decide, by decide⟩) (by decide) (by decide)).1,
    (claim_C1.1 c4client c4db 77 [sampleMailbox "inbox-1" "Inbox" 0] "M2" c1wdb1
      (Or.inr ⟨⟨"acct", "", "T1", 3⟩, by decide, by decide⟩) (by decide) (by decide)).2.2⟩,
   ⟨by decide,
    (claim_C1.2 c1client "inbox-1" 100 c1db 77 [sampleEmail "e9" ["inbox-1"] true false] "T2"
      (Or.inl (by decide)) (by decide)).1,
    (claim_C1.2 c1client "inbox-1" 100 c1db 77 [sampleEmail "e9" ["inbox-1"] true false] "T2"
      (Or.inl (by decide)) (by decide)).2.1 "e9" (sampleEmail "e9" ["inbox-1"] true false)
      (by decide),
    (claim_C1.2 c1client "inbox-1" 100 c1db 77 [sampleEmail "e9" ["inbox-1"] true false] "T2"
      (Or.inl (by decide)) (by decide)).2.2.1
      (emailToRow "acct" (sampleEmail "old1" ["inbox-1"] true false) 1) (by decide) (by decide),
    (claim_C1.2 c1client "inbox-1" 100 c1db 77 [sampleEmail "e9" ["inbox-1"] true false] "T2"
      (Or.inl (by decide)) (by decide)).2.2.2⟩⟩

/-- Claim C4 (code bug): the account stores email token "T1"; SyncMailboxes
runs a full mailbox sync (empty mailbox token) which saves a FRESH
SyncState whose EmailState field is the zero value — wiping "T1" even
though no cache wipe happened. fullEmailSync, by contrast, re-reads the
existing state to preserve the other token. -/
theorem claim_C4_token_wipe :
    (GetSyncState c4db "acct").map (fun s => s.emailState) = some "T1" ∧
    (SyncMailboxes c4client c4db 77 sfNone).1 =
      some { mailboxesCreated := 1, mailboxesUpdated := 0, mailboxesDestroyed := 0,
             emailsCreated := 0, emailsUpdated := 0, emailsDestroyed := 0 } ∧
    GetSyncState (SyncMailboxes c4client c4db 77 sfNone).2 "acct" =
      some ⟨"acct", "M2", "", 77⟩ := by
  refine ⟨by decide, by decide, by decide⟩

/-- Counterexample for C6 as stated: ClearCache is not transactional — a
failure at its third DELETE leaves the bodies and membership tables
cleared while the emails table still holds its rows: neither the prior
state nor a complete wipe. -/
theorem claim_C6_counterexample :
    (ClearCache wdb (some 2)).1 = false ∧
    (ClearCache wdb (some 2)).2 ≠ wdb ∧
    (ClearCache wdb (some 2)).2.emailBodies = [] ∧
    (ClearCache wdb (some 2)).2.emailMailboxes = [] ∧
    (ClearCache wdb (some 2)).2.emails = wdb.emails ∧
    wdb.emails ≠ [] := by
  refine ⟨by decide, by decide, by decide, by decide, by decide, by decide⟩

/-- Claim C6 (amended): every transactional write operation of the Store
(saveMailboxes, saveEmails, deleteEmail, updateEmailMailboxes) leaves the
Store in its prior state at every point of partial failure; clearCache is
excluded — it runs one autocommitted DELETE per table, so a mid-way
failure keeps the tables already processed cleared. -/
theorem claim_C6_rollback :
    (∀ (db : DB) (a : String) (mbs : List Mailbox) (now : Int) (f : Option Nat),
      (SaveMailboxes db a mbs now f).1 = false → (SaveMailboxes db a mbs now f).2 = db) ∧
    (∀ (db : DB) (a : String) (es : List Email) (now : Int) (f : Option Nat),
      (SaveEmails db a es now f).1 = false → (SaveEmails db a es now f).2 = db) ∧
    (∀ (db : DB) (i : String) (f : Option Nat),
      (DeleteEmail db i f).1 = false → (DeleteEmail db i f).2 = db) ∧
    (∀ (db : DB) (i : String) (ms : List String) (f : Option Nat),
      (UpdateEmailMailboxes db i ms f).1 = false → (UpdateEmailMailboxes db i ms f).2 = db) := by
  refine ⟨?_, ?_, ?_, ?_⟩
  · intro db a mbs now f h
    exact runTx_rollback db _ f h
  · intro db a es now f h
    exact runTx_rollback db _ f h
  · intro db i f h
    exact runTx_rollback db _ f h
  · intro db i ms f h
    exact runTx_rollback db _ f h

/-- Witness for C6 (amended): a SaveMailboxes whose first statement hits
an injected disk failure rolls back to the exact prior store. -/
theorem claim_C6_witness :
    (SaveMailboxes wdb "acct" [] 5 (some 0)).1 = false ∧
    (SaveMailboxes wdb "acct" [] 5 (some 0)).2 = wdb :=
  ⟨by decide, claim_C6_rollback.1 wdb "acct" [] 5 (some 0) (by decide)⟩

/-- Counterexample for C7 as stated: clearCache also removes membership
rows, so updateEmailMailboxes and deleteEmail are not the only removers. -/
theorem claim_C7_counterexample :
    ("e1", "inbox-1") ∈ wdb.emailMailboxes ∧
    (ClearCache wdb none).1 = true ∧
    ("e1", "inbox-1") ∉ (ClearCache wdb none).2.emailMailboxes := by
  refine ⟨by decide, by decide, by decide⟩

/-- Claim C7 (amended): saveEmails only adds membership rows — every
membership row present before the call survives it (even under failure
injection, thanks to rollback) — and no Store write other than
updateEmailMailboxes, deleteEmail and clearCache touches the membership
table. -/
theorem claim_C7_additive :
    (∀ (db : DB) (a : String) (es : List Email) (now : Int) (f : Option Nat)
      (p : String × String),
      p ∈ db.emailMailboxes → p ∈ (SaveEmails db a es now f).2.emailMailboxes) ∧
    (∀ (db : DB) (a : String) (mbs : List Mailbox) (now : Int) (f : Option Nat),
      (SaveMailboxes db a mbs now f).2.emailMailboxes = db.emailMailboxes) ∧
    (∀ (db : DB) (a : String) (mb : Mailbox) (now : Int) (f : Option Nat),
      (UpdateMailbox db a mb now f).2.emailMailboxes = db.emailMailboxes) ∧
    (∀ (db : DB) (i : String) (f : Option Nat),
      (DeleteMailbox db i f).2.emailMailboxes = db.emailMailboxes) ∧
    (∀ (db : DB) (e : Email) (now : Int) (f : Option Nat),
      (SaveEmailBody db e now f).2.emailMailboxes = db.emailMailboxes) ∧
    (∀ (db : DB) (i : String) (u fl : Bool) (now : Int) (f : Option Nat),
      (UpdateEmailFlags db i u fl now f).2.emailMailboxes = db.emailMailboxes) ∧
    (∀ (db : DB) (ot now : Int) (f : Option Nat),
      (PurgeOldBodies db ot now f).2.2.emailMailboxes = db.emailMailboxes) ∧
    (∀ (db : DB) (st : SyncStateRow) (f : Option Nat),
      (SaveSyncState db st f).2.emailMailboxes = db.emailMailboxes) := by
  refine ⟨?_, ?_, ?_, ?_, ?_, ?_, ?_, ?_⟩
  · intro db a es now f p hp
    exact runTx_membership_mono db _ f (saveEmailsStmts_no_drop a es now) p hp
  · intro db a mbs now f
    apply runTx_membership_frame
    intro s hs
    rcases saveMailboxesStmts_shape a mbs now s hs with h | ⟨r, h⟩ <;> subst h <;> rfl
  · intro db a mb now f
    apply runDirect_membership_frame
    intro s hs
    simp only [List.mem_singleton] at hs
    subst hs
    rfl
  · intro db i f
    apply runDirect_membership_frame
    intro s hs
    simp only [List.mem_singleton] at hs
    subst hs
    rfl
  · intro db e now f
    apply runDirect_membership_frame
    intro s hs
    simp only [List.mem_singleton] at hs
    subst hs
    rfl
  · intro db i u fl now f
    apply runDirect_membership_frame
    intro s hs
    simp only [List.mem_singleton] at hs
    subst hs
    rfl
  · intro db ot now f
    unfold PurgeOldBodies
    split <;> rfl
  · intro db st f
    apply runDirect_membership_frame
    intro s hs
    simp only [List.mem_singleton] at hs
    subst hs
    rfl

/-- Witness for C7 (amended): the "inbox-1" membership of "e1" survives a
saveEmails call whose email now lists only "archive-1". -/
theorem claim_C7_witness :
    ("e1", "inbox-1") ∈ wdb.emailMailboxes ∧
    ("e1", "inbox-1") ∈
      (SaveEmails wdb "acct" [sampleEmail "e1" ["archive-1"] true false] 9 none).2.emailMailboxes :=
  ⟨by decide,
   claim_C7_additive.1 wdb "acct" [sampleEmail "e1" ["archive-1"] true false] 9 none
     ("e1", "inbox-1") (by decide)⟩

/-- Claim C8: purgeOldBodies deletes exactly the body rows older than the
cutoff and returns their count, leaving all other tables (in particular
the email summaries) untouched; getEmailBody is absent exactly when the
summary row is absent (an Option, not an error); and a summary whose body
is gone is returned with empty body fields. -/
theorem claim_C8 :
    (∀ (db : DB) (ot now : Int),
      PurgeOldBodies db ot now none =
        (true, db.emailBodies.countP (fun b => decide (b.fetchedAt < now - ot)),
         { db with emailBodies :=
            db.emailBodies.filter (fun b => !(decide (b.fetchedAt < now - ot))) })) ∧
    (∀ (db : DB) (i : String),
      GetEmailBody db i = none ↔ findEmailRow db.emails i = none) ∧
    (∀ (db : DB) (i : String) (r : EmailRow) (ot now : Int),
      findEmailRow db.emails i = some r →
      findBodyRow ((PurgeOldBodies db ot now none).2.2).emailBodies i = none →
      GetEmailBody (PurgeOldBodies db ot now none).2.2 i = some (rowToEmail r) ∧
      (rowToEmail r).textBody = "" ∧ (rowToEmail r).htmlBody = "") := by
  refine ⟨?_, ?_, ?_⟩
  · intro db ot now
    simp [PurgeOldBodies]
  · intro db i
    unfold GetEmailBody
    cases hf : findEmailRow db.emails i with
    | none => simp
    | some r => cases hb : findBodyRow db.emailBodies i <;> simp
  · intro db i r ot now h1 h2
    have he : (PurgeOldBodies db ot now none).2.2.emails = db.emails := by
      simp [PurgeOldBodies]
    have hfe : findEmailRow (PurgeOldBodies db ot now none).2.2.emails i = some r := by
      rw [he]; exact h1
    refine ⟨?_, rfl, rfl⟩
    unfold GetEmailBody
    rw [hfe, h2]

/-- Witness for C8: purging wdb at cutoff 100 removes the body of "e1"
(fetched at 4) yet getEmailBody still returns its summary, with empty
body fields. -/
theorem claim_C8_witness :
    (findEmailRow wdb.emails "e1" =
      some (emailToRow "acct" (sampleEmail "e1" ["inbox-1"] true false) 1) ∧
     findBodyRow ((PurgeOldBodies wdb 0 100 none).2.2).emailBodies "e1" = none) ∧
    GetEmailBody (PurgeOldBodies wdb 0 100 none).2.2 "e1" =
      some (rowToEmail (emailToRow "acct" (sampleEmail "e1" ["inbox-1"] true false) 1)) ∧
    (rowToEmail (emailToRow "acct" (sampleEmail "e1" ["inbox-1"] true false) 1)).textBody = "" ∧
    (rowToEmail (emailToRow "acct" (sampleEmail "e1" ["inbox-1"] true false) 1)).htmlBody = "" :=
  ⟨⟨by decide, by decide⟩,
   claim_C8.2.2 wdb "e1" (emailToRow "acct" (sampleEmail "e1" ["inbox-1"] true false) 1) 0 100
     (by decide) (by decide)⟩

/-- Claim C9: the load-mailboxes path returns a non-empty cache read
immediately, tagged fromCache, with zero Remote Client invocations; on an
empty cache it makes exactly one Remote Client invocation and the Update
handler persists the fetched result into the Store before the pipeline
completes. -/
theorem claim_C9 :
    (∀ (db : DB) (a : String) (rem : Option (List Mailbox)) (now : Int) (f : Option Nat),
      GetMailboxes db a ≠ [] →
      loadMailboxesPipeline db a rem now f =
        ({ mailboxes := GetMailboxes db a, fromCache := true, errFlag := false }, db, 0)) ∧
    (∀ (db : DB) (a : String) (mbs : List Mailbox) (now : Int) (db1 : DB),
      GetMailboxes db a = [] →
      SaveMailboxes db a mbs now none = (true, db1) →
      loadMailboxesPipeline db a (some mbs) now none =
        ({ mailboxes := mbs, fromCache := false, errFlag := false }, db1, 1)) := by
  constructor
  · intro db a rem now f h
    have hl : (GetMailboxes db a).length > 0 := List.length_pos.mpr h
    unfold loadMailboxesPipeline loadMailboxesCacheFirst handleMailboxesLoaded
    simp [hl]
  · intro db a mbs now db1 h hS
    have hl : ¬ (GetMailboxes db a).length > 0 := by simp [h]
    unfold loadMailboxesPipeline loadMailboxesCacheFirst handleMailboxesLoaded
    simp [hl, hS]

/-- Witness for C9: wdb's non-empty cache short-circuits with no remote
call; the empty store fetches once and persists before returning. -/
theorem claim_C9_witness :
    (GetMailboxes wdb "acct" ≠ [] ∧
      loadMailboxesPipeline wdb "acct" none 7 none =
        ({ mailboxes := GetMailboxes wdb "acct", fromCache := true, errFlag := false }, wdb, 0)) ∧
    (GetMailboxes dbEmpty "acct" = [] ∧
      SaveMailboxes dbEmpty "acct" [sampleMailbox "inbox-1" "Inbox" 0] 7 none = (true, c9db1) ∧
      loadMailboxesPipeline dbEmpty "acct" (some [sampleMailbox "inbox-1" "Inbox" 0]) 7 none =
        ({ mailboxes := [sampleMailbox "inbox-1" "Inbox" 0], fromCache := false,
           errFlag := false }, c9db1, 1)) :=
  ⟨⟨by decide, claim_C9.1 wdb "acct" none 7 none (by decide)⟩,
   ⟨by decide, by decide,
    claim_C9.2 dbEmpty "acct" [sampleMailbox "inbox-1" "Inbox" 0] 7 c9db1
      (by decide) (by decide)⟩⟩

/-- Claim C10: after saveEmails, the stored summary row equals the row
built from the input record (flags included), regardless of what was
stored before — in particular a prior updateEmailFlags change is
overwritten by a subsequent saveEmails of the same email. -/
theorem claim_C10 :
    (∀ (db : DB) (a : String) (es : List Email) (now : Int) (i : String) (e : Email),
      lastWithId es i = some e →
      (SaveEmails db a es now none).1 = true ∧
      findEmailRow ((SaveEmails db a es now none).2).emails i = some (emailToRow a e now)) ∧
    (∀ (a : String) (e : Email) (now : Int),
      (emailToRow a e now).isUnread = e.isUnread ∧
      (emailToRow a e now).isFlagged = e.isFlagged) ∧
    (∀ (db : DB) (a : String) (es : List Email) (now : Int) (i : String) (e : Email)
      (u fl : Bool) (now1 : Int),
      lastWithId es i = some e →
      findEmailRow
        ((SaveEmails ((UpdateEmailFlags db i u fl now1 none).2) a es now none).2).emails i =
        some (emailToRow a e now)) := by
  refine ⟨?_, ?_, ?_⟩
  · intro db a es now i e hl
    rw [saveEmails_run db a es now]
    refine ⟨rfl, ?_⟩
    rw [applyEmails_lookup a now es i db, hl]
  · intro a e now
    exact ⟨rfl, rfl⟩
  · intro db a es now i e u fl now1 hl
    rw [saveEmails_run _ a es now]
    rw [applyEmails_lookup a now es i _, hl]

/-- Witness for C10: "e1" is stored unread and unflagged after a prior
updateEmailFlags set it read and flagged, once saveEmails re-saves the
server-derived record. -/
theorem claim_C10_witness :
    lastWithId [sampleEmail "e1" ["inbox-1"] true false] "e1" =
      some (sampleEmail "e1" ["inbox-1"] true false) ∧
    findEmailRow
      ((SaveEmails ((UpdateEmailFlags wdb "e1" false true 8 none).2) "acct"
        [sampleEmail "e1" ["inbox-1"] true false] 9 none).2).emails "e1" =
      some (emailToRow "acct" (sampleEmail "e1" ["inbox-1"] true false) 9) ∧
    (emailToRow "acct" (sampleEmail "e1" ["inbox-1"] true false) 9).isUnread = true ∧
    (emailToRow "acct" (sampleEmail "e1" ["inbox-1"] true false) 9).isFlagged = false :=
  ⟨by decide,
   claim_C10.2.2 wdb "acct" [sampleEmail "e1" ["inbox-1"] true false] 9 "e1"
     (sampleEmail "e1" ["inbox-1"] true false) false true 8 (by decide),
   (claim_C10.2.1 "acct" (sampleEmail "e1" ["inbox-1"] true false) 9).1.trans (by decide),
   (claim_C10.2.1 "acct" (sampleEmail "e1" ["inbox-1"] true false) 9).2.trans (by decide)⟩

end Anneal
